import Mathlib

/-!
Verification development for the Pachimon V2.5 arcade simulation
(single-source React application, `src/App.tsx`).

The simulation core is embedded shallowly:

* positions of the player and the ghosts are integers (in the source they
  are JS numbers, but every assignment keeps them integral: speeds are
  4, 2 and 2 * 0.5 = 1 and every spawn point is a multiple of the tile
  size);
* the falling-witch (hazard) positions are rationals, since their speed
  and horizontal drift are real-valued;
* `Math.floor` on a quotient of integers is `Int.fdiv`, and
  `Math.round (x / 36)` is `Int.fdiv (x + 18) 36` (JS rounds .5 toward
  positive infinity, which floor of x + 18 reproduces for integer x);
* all randomness (`Math.random()`) is supplied by an `Oracle` record:
  random grid draws `Math.floor (Math.random () * GRID_WIDTH)` are taken
  modulo the grid dimension so that every oracle value is a draw the
  source could have made; the transcendental `Math.sin` drift of a witch
  is likewise an oracle input;
* React state setters (`setScore`, `setLives`, `setGameState`, ...) are
  modelled as synchronous updates applied in source order; the local
  variable `pacman` captured at the start of `update` survives a
  mid-tick `resetPositions` (which replaces the ref with a fresh
  object), so the tick function threads that captured position `pac`
  into the tile-effect, ghost-collision and witch-collision phases;
* the two unbounded `while` placement loops of `initGame` are given an
  explicit fuel parameter, because they have no bound in the source;
  fuel exhaustion models the loop still spinning (this matters for the
  termination claim about them);
* purely presentational React state (high score, countdown display,
  joystick, audio) is outside the simulation core and not modelled.
-/

namespace Pachimon

/-! ### Constants -/

def TILE_SIZE : Int := 36

def GRID_WIDTH : Int := 15

def GRID_HEIGHT : Int := 21

def CANVAS_WIDTH : Int := TILE_SIZE * GRID_WIDTH

def CANVAS_HEIGHT : Int := TILE_SIZE * GRID_HEIGHT

def STAGE_COLORS : List String := ["#ff6600", "#9933ff", "#00ff00", "#ff00ff"]

def GHOST_DATA : List (String × String) :=
  [("#ff0000", "cape"), ("#9933ff", "hat"), ("#444444", "wings"), ("#00ff00", "stitches")]

/-! ### Data model -/

inductive Direction
  | UP
  | DOWN
  | LEFT
  | RIGHT
  | NONE
deriving DecidableEq, Repr

structure Entity where
  x : Int
  y : Int
  dir : Direction
  nextDir : Direction
  speed : Int
deriving DecidableEq, Repr

structure GhostEntity extends Entity where
  color : String
  trait : String
  isScared : Bool
  isEaten : Bool
  isDying : Bool
  deathTimer : Int
deriving DecidableEq, Repr

structure ScorePopup where
  x : Int
  y : Int
  score : Int
  timer : Int
deriving DecidableEq, Repr

structure WallFragment where
  x : ℚ
  y : ℚ
  vx : ℚ
  vy : ℚ
  timer : Int
  color : String
deriving DecidableEq, Repr

structure WitchEntity where
  x : ℚ
  y : ℚ
  speed : ℚ
  active : Bool
  phase : ℚ
deriving DecidableEq, Repr

inductive GState
  | START
  | PLAYING
  | GAMEOVER
  | WON
  | COUNTDOWN
deriving DecidableEq, Repr

/-- The tile grid: a list of GRID_HEIGHT rows of GRID_WIDTH tile codes.
Codes as in the source: 0 empty, 1 wall, 2 pellet, 3 power candy,
4 ghost (hazard-chamber) spawn, 5 player spawn, 6 tombstone, 7 fruit. -/
abbrev Maze := List (List Nat)

/-- `maze[gy]?.[gx]` of the source: `none` when either index is out of
bounds (a JS property access on a missing index yields undefined). -/
def mazeGet (m : Maze) (gy gx : Int) : Option Nat :=
  if gy < 0 ∨ gx < 0 then none
  else (m.get? gy.toNat).bind (fun row => row.get? gx.toNat)

/-- `maze[gy][gx] = v` of the source (every write in the source happens
at indices that exist; out-of-range writes leave the grid unchanged). -/
def mazeSet (m : Maze) (gy gx : Int) (v : Nat) : Maze :=
  if gy < 0 ∨ gx < 0 then m
  else
    match m.get? gy.toNat with
    | none => m
    | some row => m.set gy.toNat (row.set gx.toNat v)

/-- The whole mutable simulation state held in React refs/state. -/
structure GameState where
  score : Int
  lives : Int
  gameState : GState
  maze : Maze
  pacman : Entity
  ghosts : List GhostEntity
  witches : List WitchEntity
  popups : List ScorePopup
  wallFragments : List WallFragment
  powerMode : Int
  wallsLeft : Int
  totalPellets : Int
  eatenPellets : Int
  stage : Int
deriving DecidableEq, Repr

/-- One tick's worth of `Math.random()` draws, supplied externally.
Grid draws are pairs of naturals, reduced modulo the grid dimensions at
use sites so that they coincide with `Math.floor (random * dim)`. -/
structure Oracle where
  ghostDirChoice : List Nat
  ghostRespawnRoll : List Bool
  candyRespawnSeq : List (Nat × Nat)
  bonusCandy : Option (Nat × Nat)
  bonusFruit : Option (Nat × Nat)
  witchSpawn : Option (ℚ × ℚ × ℚ)
  witchDrift : List ℚ
  fragmentVels : List (ℚ × ℚ)

/-! ### Maze generation (`generateMaze`) -/

/-- `[[0,2],[0,-2],[2,0],[-2,0]].sort(() => Math.random() - 0.5)`:
the comparator shuffles the four step vectors; the oracle value selects
which of the 24 orders came out. -/
def shuffledDirs (r : Nat) : List (Int × Int) :=
  (([((0 : Int), (2 : Int)), (0, -2), (2, 0), (-2, 0)]).permutations).getD (r % 24)
    [(0, 2), (0, -2), (2, 0), (-2, 0)]

/-- The body of the `for (const [dx, dy] of dirs)` loop of `walk`,
parameterised by the recursive call `step` on the neighbour cell. -/
def walkDirsAux (step : Int → Int → Maze → Nat → Maze × Nat) (x y : Int) :
    List (Int × Int) → Maze → Nat → Maze × Nat
  | [], m, c => (m, c)
  | (dx, dy) :: rest, m, c =>
    let nx := x + dx
    let ny := y + dy
    if 0 < nx ∧ nx < GRID_WIDTH - 1 ∧ 0 < ny ∧ ny < GRID_HEIGHT - 1 ∧
        mazeGet m ny nx = some 1 then
      let m1 := mazeSet m (y + dy / 2) (x + dx / 2) 0
      let mc := step nx ny m1 c
      walkDirsAux step x y rest mc.1 mc.2
    else
      walkDirsAux step x y rest m c

/-- The recursive backtracking carver `walk` of the source, with a fuel
bound on the recursion depth (the source recursion is bounded by the
number of lattice cells) and a call counter `c` indexing the shuffles. -/
def walk (rand : Nat → Nat) : Nat → Int → Int → Maze → Nat → Maze × Nat
  | 0, _, _, m, c => (m, c)
  | fuel + 1, x, y, m, c =>
    let m1 := mazeSet m y x 0
    walkDirsAux (walk rand fuel) x y (shuffledDirs (rand c)) m1 (c + 1)

/-- `generateMaze` of the source: carve from (1,1), open the 3 by 3
hazard chamber at the grid midpoint, fill carved cells with pellets and
mark the player spawn near the bottom centre. -/
def generateMaze (rand : Nat → Nat) (fuel : Nat) : Maze :=
  let maze0 : Maze := List.replicate GRID_HEIGHT.toNat (List.replicate GRID_WIDTH.toNat 1)
  let maze1 := (walk rand fuel 1 1 maze0 0).1
  let midX := Int.fdiv GRID_WIDTH 2
  let midY := Int.fdiv GRID_HEIGHT 2
  let offs : List Int := [-1, 0, 1]
  let maze2 := offs.foldl (fun m i => offs.foldl (fun m j => mazeSet m (midY + i) (midX + j) 0) m) maze1
  let maze3 := mazeSet maze2 midY midX 4
  let maze4 := maze3.map (fun row => row.map (fun c => if c = 0 then 2 else c))
  mazeSet maze4 (GRID_HEIGHT - 2) midX 5

/-! ### Stage initialisation (`initGame`) -/

/-- The pellet count of `initGame`: cells holding 2 or 3, counted over
the freshly generated maze (before candies and tombstones are placed). -/
def countTotalPellets (m : Maze) : Int :=
  m.foldl (fun t row => row.foldl (fun t c => if c = 2 ∨ c = 3 then t + 1 else t) t) 0

/-- The player-spawn scan of `initGame`: the last cell holding 5 wins;
the defaults are the bottom-centre coordinates. Returns (px, py). -/
def findStart (m : Maze) : Int × Int :=
  m.enum.foldl
    (fun acc row =>
      row.2.enum.foldl
        (fun acc cell => if cell.2 = 5 then ((cell.1 : Int), (row.1 : Int)) else acc) acc)
    (Int.fdiv GRID_WIDTH 2, GRID_HEIGHT - 2)

/-- The same scan clears every 5 back to 0. -/
def clearStarts (m : Maze) : Maze :=
  m.map (fun row => row.map (fun c => if c = 5 then 0 else c))

/-- The `while (placed < 10)` power-candy placement loop of `initGame`.
The source loop is unbounded; `fuel` bounds the model, `step` indexes
the draw stream, and the returned Nat is how many candies were placed. -/
def placeCandies (draws : Nat → Nat × Nat) : Nat → Nat → Nat → Maze → Maze × Nat
  | 0, _, placed, m => (m, placed)
  | fuel + 1, step, placed, m =>
    if 10 ≤ placed then (m, placed)
    else
      let d := draws step
      let gx : Int := (d.1 % 15 : Nat)
      let gy : Int := (d.2 % 21 : Nat)
      if mazeGet m gy gx = some 2 then
        placeCandies draws fuel (step + 1) (placed + 1) (mazeSet m gy gx 3)
      else
        placeCandies draws fuel (step + 1) placed m

/-- The `while (tombstones < 3)` tombstone placement loop of `initGame`,
eligible on cells holding 2 or 0; unbounded in the source. -/
def placeTombstones (draws : Nat → Nat × Nat) : Nat → Nat → Nat → Maze → Maze × Nat
  | 0, _, placed, m => (m, placed)
  | fuel + 1, step, placed, m =>
    if 3 ≤ placed then (m, placed)
    else
      let d := draws step
      let gx : Int := (d.1 % 15 : Nat)
      let gy : Int := (d.2 % 21 : Nat)
      if mazeGet m gy gx = some 2 ∨ mazeGet m gy gx = some 0 then
        placeTombstones draws fuel (step + 1) (placed + 1) (mazeSet m gy gx 6)
      else
        placeTombstones draws fuel (step + 1) placed m

/-- `initGame` of the source. -/
def initGame (isNextStage : Bool) (rand : Nat → Nat) (mazeFuel : Nat)
    (candyDraws : Nat → Nat × Nat) (candyFuel : Nat)
    (tombDraws : Nat → Nat × Nat) (tombFuel : Nat) (s : GameState) : GameState :=
  let s1 := if isNextStage then { s with stage := s.stage + 1 }
            else { s with stage := 1, score := 0, lives := 3 }
  let newMaze := generateMaze rand mazeFuel
  let total := countTotalPellets newMaze
  let pxy := findStart newMaze
  let maze1 := clearStarts newMaze
  let midX := Int.fdiv GRID_WIDTH 2
  let midY := Int.fdiv GRID_HEIGHT 2
  let maze2 := (placeCandies candyDraws candyFuel 0 0 maze1).1
  let maze3 := (placeTombstones tombDraws tombFuel 0 0 maze2).1
  { s1 with
    maze := maze3
    witches := []
    totalPellets := total
    eatenPellets := 0
    pacman := { x := pxy.1 * TILE_SIZE, y := pxy.2 * TILE_SIZE,
                dir := Direction.NONE, nextDir := Direction.NONE, speed := 4 }
    ghosts := GHOST_DATA.enum.map (fun gi =>
      { x := (midX + (if gi.1 % 2 = 0 then -1 else 1)) * TILE_SIZE
        y := midY * TILE_SIZE
        dir := Direction.UP
        nextDir := Direction.UP
        speed := 2
        color := gi.2.1
        trait := gi.2.2
        isScared := false
        isEaten := false
        isDying := false
        deathTimer := 0 })
    popups := []
    wallsLeft := 0
    powerMode := 0 }

/-- `resetPositions` of the source: player and ghosts back to their
stage-start positions, ghost flags cleared (death timers are not). -/
def resetPositions (s : GameState) : GameState :=
  let midX := Int.fdiv GRID_WIDTH 2
  let midY := Int.fdiv GRID_HEIGHT 2
  { s with
    pacman := { x := midX * TILE_SIZE, y := (GRID_HEIGHT - 2) * TILE_SIZE,
                dir := Direction.NONE, nextDir := Direction.NONE, speed := 4 }
    ghosts := s.ghosts.enum.map (fun gi =>
      { gi.2 with
        x := (midX + (if gi.1 % 2 = 0 then -1 else 1)) * TILE_SIZE
        y := midY * TILE_SIZE
        dir := Direction.UP
        isScared := false
        isEaten := false
        isDying := false }) }

/-- The `setLives(l => ...)` updater shared by the tombstone, ghost and
witch collision sites: at one life the run ends with no position reset,
otherwise a life is lost and positions are reset. -/
def applyLifeLoss (s : GameState) : GameState :=
  if s.lives ≤ 1 then { s with lives := 0, gameState := GState.GAMEOVER }
  else { resetPositions s with lives := s.lives - 1 }

/-! ### Grid motion (`canMove`) -/

/-- The projected look-ahead point of `canMove`, horizontal component. -/
def lookAheadX (x : Int) : Direction → Int
  | Direction.LEFT => x - 4
  | Direction.RIGHT => x + TILE_SIZE + 4 - 1
  | _ => x

/-- The projected look-ahead point of `canMove`, vertical component. -/
def lookAheadY (y : Int) : Direction → Int
  | Direction.UP => y - 4
  | Direction.DOWN => y + TILE_SIZE + 4 - 1
  | _ => y

/-- The grid column of the projected point. -/
def gridXOf (x : Int) (d : Direction) : Int :=
  Int.fdiv (lookAheadX x d) TILE_SIZE

/-- The grid row of the projected point. -/
def gridYOf (y : Int) (d : Direction) : Int :=
  Int.fdiv (lookAheadY y d) TILE_SIZE

/-- `canMove` of the source. Horizontal out-of-range wraps (motion
permitted), vertical out-of-range blocks; a wall is provisionally
passable while power mode is active with a wall-break charge left. -/
def canMove (m : Maze) (powerMode wallsLeft : Int) (x y : Int) (dir : Direction) : Bool :=
  let gridX := gridXOf x dir
  let gridY := gridYOf y dir
  if gridX < 0 ∨ GRID_WIDTH ≤ gridX then true
  else if gridY < 0 ∨ GRID_HEIGHT ≤ gridY then false
  else
    match mazeGet m gridY gridX with
    | some 1 => decide (0 < powerMode) && decide (0 < wallsLeft)
    | _ => true

/-! ### The per-tick update, one phase per definition, composed in
source order by `update`. -/

/-- `Math.round (a / TILE_SIZE)` for integer `a`. -/
def roundDiv36 (a : Int) : Int := Int.fdiv (a + TILE_SIZE / 2) TILE_SIZE

/-- One move of an entity along its current direction at the given
speed (the common `if dir === ...` displacement block). -/
def moveBy (p : Entity) (sp : Int) : Entity :=
  match p.dir with
  | Direction.UP => { p with y := p.y - sp }
  | Direction.DOWN => { p with y := p.y + sp }
  | Direction.LEFT => { p with x := p.x - sp }
  | Direction.RIGHT => { p with x := p.x + sp }
  | Direction.NONE => p

/-- The wall-break block guarded by `powerMode > 0 && wallsLeft > 0`:
if the cell under the (already moved) player centre is a WALL, clear
it, consume a charge, award 50 points and emit eight fragments. -/
def breakWallAt (o : Oracle) (p1 : Entity) (s : GameState) : GameState :=
  let gridX := Int.fdiv (p1.x + TILE_SIZE / 2) TILE_SIZE
  let gridY := Int.fdiv (p1.y + TILE_SIZE / 2) TILE_SIZE
  if mazeGet s.maze gridY gridX = some 1 then
    { s with
      pacman := p1
      maze := mazeSet s.maze gridY gridX 0
      wallsLeft := s.wallsLeft - 1
      score := s.score + 50
      wallFragments := s.wallFragments ++ (List.range 8).map (fun i =>
        { x := ((gridX * TILE_SIZE + TILE_SIZE / 2 : Int) : ℚ)
          y := ((gridY * TILE_SIZE + TILE_SIZE / 2 : Int) : ℚ)
          vx := (o.fragmentVels.getD i (0, 0)).1
          vy := (o.fragmentVels.getD i (0, 0)).2
          timer := 30
          color := STAGE_COLORS.getD (((s.stage - 1) % 4).toNat) "" }) }
  else { s with pacman := p1 }

/-- Player phase: queued-direction acceptance at an intersection, the
move (or the snap-to-grid recovery when blocked off-grid), and the
wall-break rule under power mode with charges. -/
def stepPacmanMove (o : Oracle) (s : GameState) : GameState :=
  let p0 := s.pacman
  let isAtIntersection := p0.x % TILE_SIZE = 0 ∧ p0.y % TILE_SIZE = 0
  let p := if p0.nextDir ≠ Direction.NONE ∧ isAtIntersection ∧
              canMove s.maze s.powerMode s.wallsLeft p0.x p0.y p0.nextDir = true
           then { p0 with dir := p0.nextDir, nextDir := Direction.NONE }
           else p0
  if canMove s.maze s.powerMode s.wallsLeft p.x p.y p.dir = true then
    let p1 := moveBy p p.speed
    if 0 < s.powerMode ∧ 0 < s.wallsLeft then
      breakWallAt o p1 s
    else { s with pacman := p1 }
  else
    if ¬ isAtIntersection then
      { s with pacman := { p with x := roundDiv36 p.x * TILE_SIZE,
                                  y := roundDiv36 p.y * TILE_SIZE } }
    else { s with pacman := p }

/-- Horizontal wrap of the player. -/
def stepWrap (s : GameState) : GameState :=
  let p0 := s.pacman
  let p1 := if p0.x < -TILE_SIZE then { p0 with x := CANVAS_WIDTH } else p0
  let p2 := if p1.x > CANVAS_WIDTH then { p1 with x := -TILE_SIZE } else p1
  { s with pacman := p2 }

/-- Out-of-bounds recovery: a player further than two tiles past any
edge is recovered by resetting positions. -/
def stepOob (s : GameState) : GameState :=
  let p := s.pacman
  if p.x < -TILE_SIZE * 2 ∨ p.x > CANVAS_WIDTH + TILE_SIZE * 2 ∨
     p.y < -TILE_SIZE * 2 ∨ p.y > CANVAS_HEIGHT + TILE_SIZE * 2
  then resetPositions s else s

/-- The bounded best-effort power-candy respawn loop
(`while (!respawned && attempts < 100)`), consuming one oracle draw per
attempt. -/
def candyRespawnLoop : Nat → List (Nat × Nat) → Maze → Maze
  | 0, _, m => m
  | _ + 1, [], m => m
  | fuel + 1, d :: rest, m =>
    let gx : Int := (d.1 % 15 : Nat)
    let gy : Int := (d.2 % 21 : Nat)
    if mazeGet m gy gx = some 2 ∨ mazeGet m gy gx = some 0 then
      mazeSet m gy gx 3
    else
      candyRespawnLoop fuel rest m

/-- Tile-effect phase at the rounded player cell `pac` (the tick-local
player coordinates): pellet, power candy (with power-mode activation,
ghost scaring and bounded respawn), tombstone, fruit. -/
def stepTileEffect (o : Oracle) (pac : Int × Int) (s : GameState) : GameState :=
  let gridX := roundDiv36 pac.1
  let gridY := roundDiv36 pac.2
  match mazeGet s.maze gridY gridX with
  | some 2 =>
    { s with
      maze := mazeSet s.maze gridY gridX 0
      eatenPellets := s.eatenPellets + 1
      score := s.score + 10 }
  | some 3 =>
    let s1 :=
      { s with
        maze := mazeSet s.maze gridY gridX 0
        eatenPellets := s.eatenPellets + 1
        score := s.score + 50
        powerMode := 600
        wallsLeft := 5
        ghosts := s.ghosts.map (fun g : GhostEntity =>
          if !g.isEaten then { g with isScared := true } else g) }
    { s1 with maze := candyRespawnLoop 100 o.candyRespawnSeq s1.maze }
  | some 6 =>
    if s.powerMode = 0 then
      let s1 := applyLifeLoss s
      { s1 with maze := mazeSet s1.maze gridY gridX 0 }
    else
      let s1 : GameState := { s with maze := mazeSet s.maze gridY gridX 0 }
      let s2 : GameState :=
        if 0 < s1.wallsLeft then { s1 with wallsLeft := s1.wallsLeft - 1 } else s1
      { s2 with score := s2.score + 100 }
  | some 7 =>
    { s with
      maze := mazeSet s.maze gridY gridX 0
      score := s.score + 500
      popups := s.popups ++ [{ x := pac.1, y := pac.2, score := 500, timer := 60 }] }
  | _ => s

/-- Power-mode countdown; on reaching zero every ghost's scared flag is
cleared. -/
def stepPowerMode (s : GameState) : GameState :=
  if 0 < s.powerMode then
    let pm := s.powerMode - 1
    if pm = 0 then
      { s with powerMode := 0, ghosts := s.ghosts.map (fun g => { g with isScared := false }) }
    else { s with powerMode := pm }
  else s

/-- Score-popup aging. -/
def stepPopups (s : GameState) : GameState :=
  let ps := (s.popups.map (fun p => { p with timer := p.timer - 1 })).filter (fun p => 0 < p.timer)
  { s with popups := ps }

/-- Wall-fragment physics and aging. -/
def stepFragments (s : GameState) : GameState :=
  let fs := (s.wallFragments.map (fun f =>
    { f with x := f.x + f.vx, y := f.y + f.vy, timer := f.timer - 1 })).filter (fun f => 0 < f.timer)
  { s with wallFragments := fs }

/-- Whether two directions are exact opposites (the no-U-turn rule). -/
def isReverse : Direction → Direction → Bool
  | Direction.UP, Direction.DOWN => true
  | Direction.DOWN, Direction.UP => true
  | Direction.LEFT, Direction.RIGHT => true
  | Direction.RIGHT, Direction.LEFT => true
  | _, _ => false

/-- The ghost-player collision threshold `dist < TILE_SIZE * 0.8`,
squared to stay in exact integer arithmetic. -/
def ghostCollides (dx dy : Int) : Bool :=
  decide (25 * (dx * dx + dy * dy) < 20736)

/-- The dying-ghost block of the ghost `forEach`: decrement the death
timer, ascend, and on expiry teleport to the hazard-chamber centre as
an EATEN ghost. -/
def dyingGhostStep (g0 : GhostEntity) : GhostEntity :=
  let g1 := { g0 with deathTimer := g0.deathTimer - 1, y := g0.y - 2 }
  if g1.deathTimer ≤ 0 then
    { g1 with
      isDying := false
      isEaten := true
      x := Int.fdiv GRID_WIDTH 2 * TILE_SIZE
      y := Int.fdiv GRID_HEIGHT 2 * TILE_SIZE }
  else g1

/-- The movement half of the ghost `forEach`: random direction choice
at intersections (no immediate U-turn, with the any-direction
fallback), displacement at half speed while scared, and the horizontal
wrap. -/
def ghostAdvance (o : Oracle) (i : Nat) (s : GameState) (g0 : GhostEntity) : GhostEntity :=
  let dirs : List Direction := [Direction.UP, Direction.DOWN, Direction.LEFT, Direction.RIGHT]
  let g1 := if g0.x % TILE_SIZE = 0 ∧ g0.y % TILE_SIZE = 0 then
      let validDirs := dirs.filter (fun d =>
        !isReverse d g0.dir && canMove s.maze s.powerMode s.wallsLeft g0.x g0.y d)
      if 0 < validDirs.length then
        { g0 with dir := validDirs.getD (o.ghostDirChoice.getD i 0 % validDirs.length) g0.dir }
      else
        let anyValid := dirs.filter (fun d => canMove s.maze s.powerMode s.wallsLeft g0.x g0.y d)
        { g0 with dir := anyValid.getD 0 Direction.NONE }
    else g0
  let sp := if g1.isScared then g1.speed / 2 else g1.speed
  let g2 := { g1 with toEntity := moveBy g1.toEntity sp }
  let g3 := if g2.x < -TILE_SIZE then { g2 with x := CANVAS_WIDTH } else g2
  if g3.x > CANVAS_WIDTH then { g3 with x := -TILE_SIZE } else g3

/-- One iteration of the ghost `forEach`: the dying countdown, or else
movement followed by the distance-based player collision (an eaten or
dying ghost is excluded by the guard) and the stochastic eaten-ghost
respawn. `pac` is the tick-local player position. -/
def stepGhostAt (o : Oracle) (pac : Int × Int) (i : Nat) (s : GameState) : GameState :=
  match s.ghosts.get? i with
  | none => s
  | some g0 =>
    if g0.isDying then
      { s with ghosts := s.ghosts.set i (dyingGhostStep g0) }
    else
      let g4 := ghostAdvance o i s g0
      let s1 :=
        if ghostCollides (pac.1 - g4.x) (pac.2 - g4.y) && !g4.isEaten && !g4.isDying then
          if g4.isScared then
            let g5 := { g4 with isScared := false, isDying := true, deathTimer := 30 }
            { s with
              ghosts := s.ghosts.set i g5
              score := s.score + 200
              popups := s.popups ++ [{ x := g5.x, y := g5.y, score := 200, timer := 60 }] }
          else
            applyLifeLoss { s with ghosts := s.ghosts.set i g4 }
        else { s with ghosts := s.ghosts.set i g4 }
      match s1.ghosts.get? i with
      | none => s1
      | some g6 =>
        if g6.isEaten && o.ghostRespawnRoll.getD i false then
          { s1 with ghosts := s1.ghosts.set i { g6 with isEaten := false } }
        else s1

/-- The ghost `forEach` over the fixed ghost list. -/
def stepGhosts (o : Oracle) (pac : Int × Int) (s : GameState) : GameState :=
  (List.range s.ghosts.length).foldl (fun s i => stepGhostAt o pac i s) s

/-- `eatenPellets / totalPellets >= 0.75` as exact arithmetic; the
second conjunct reproduces the JS NaN comparison for 0 / 0. -/
def winCond (s : GameState) : Prop :=
  3 * s.totalPellets ≤ 4 * s.eatenPellets ∧ (s.eatenPellets ≠ 0 ∨ s.totalPellets ≠ 0)

instance (s : GameState) : Decidable (winCond s) := by
  unfold winCond; infer_instance

/-- Win check: at 75 percent consumption the stage flips to WON (the
delayed countdown and stage advance happen outside the tick). -/
def stepWinCheck (s : GameState) : GameState :=
  if winCond s then { s with gameState := GState.WON } else s

/-- Stochastic bonus power-candy spawn on an empty cell. -/
def stepBonusCandy (o : Oracle) (s : GameState) : GameState :=
  match o.bonusCandy with
  | none => s
  | some d =>
    let gx : Int := (d.1 % 15 : Nat)
    let gy : Int := (d.2 % 21 : Nat)
    if mazeGet s.maze gy gx = some 0 then { s with maze := mazeSet s.maze gy gx 3 } else s

/-- Stochastic bonus fruit spawn on an empty cell. -/
def stepBonusFruit (o : Oracle) (s : GameState) : GameState :=
  match o.bonusFruit with
  | none => s
  | some d =>
    let gx : Int := (d.1 % 15 : Nat)
    let gy : Int := (d.2 % 21 : Nat)
    if mazeGet s.maze gy gx = some 0 then { s with maze := mazeSet s.maze gy gx 7 } else s

/-- Stochastic witch spawn above the visible area, capped at two
concurrently active witches. -/
def stepWitchSpawn (o : Oracle) (s : GameState) : GameState :=
  match o.witchSpawn with
  | none => s
  | some w =>
    if s.witches.length < 2 then
      { s with witches := s.witches ++
          [{ x := w.1, y := -50, speed := w.2.1, active := true, phase := w.2.2 }] }
    else s

/-- The witch-player collision threshold `dist < TILE_SIZE * 0.7`,
squared ((126 / 5) ^ 2 = 15876 / 25). -/
def witchCollides (dx dy : ℚ) : Bool :=
  decide (dx * dx + dy * dy < (15876 / 25 : ℚ))

/-- One iteration of the witch `forEach`: fall by the vertical speed,
drift horizontally (the sine value is an oracle input), and on contact
with the player deactivate and trigger a life loss — note the source
consults neither the power-mode timer nor anything else here. -/
def stepWitchAt (o : Oracle) (pac : Int × Int) (i : Nat) (s : GameState) : GameState :=
  match s.witches.get? i with
  | none => s
  | some w0 =>
    let w1 := { w0 with y := w0.y + w0.speed }
    let w2 := { w1 with x := w1.x + o.witchDrift.getD i 0 * 3 }
    if witchCollides ((pac.1 : ℚ) - w2.x) ((pac.2 : ℚ) - w2.y) && w2.active then
      applyLifeLoss { s with witches := s.witches.set i { w2 with active := false } }
    else
      { s with witches := s.witches.set i w2 }

/-- The witch `forEach` followed by the prune of inactive or
off-screen witches. -/
def stepWitches (o : Oracle) (pac : Int × Int) (s : GameState) : GameState :=
  let s1 := (List.range s.witches.length).foldl (fun s i => stepWitchAt o pac i s) s
  { s1 with witches := s1.witches.filter (fun w =>
      decide (w.y < (CANVAS_HEIGHT : ℚ) + 50) && w.active) }

/-- The body of `update` once past the PLAYING guard. `pac` is captured
after the move and wrap phases, mirroring the tick-local `pacman`
variable of the source, which survives any mid-tick `resetPositions`. -/
def updateBody (o : Oracle) (s : GameState) : GameState :=
  let s1 := stepPacmanMove o s
  let s2 := stepWrap s1
  let pac := (s2.pacman.x, s2.pacman.y)
  let s3 := stepOob s2
  let s4 := stepTileEffect o pac s3
  let s5 := stepPowerMode s4
  let s6 := stepPopups s5
  let s7 := stepFragments s6
  let s8 := stepGhosts o pac s7
  let s9 := stepWinCheck s8
  let s10 := stepBonusCandy o s9
  let s11 := stepBonusFruit o s10
  let s12 := stepWitchSpawn o s11
  stepWitches o pac s12

/-- `update` of the source: one simulation tick. -/
def update (o : Oracle) (s : GameState) : GameState :=
  if s.gameState ≠ GState.PLAYING then s else updateBody o s

/-- The consumption percentage displayed by the stat bar:
`Math.floor (eatenPellets / totalPellets * 100)`. -/
def consumptionRate (s : GameState) : Int :=
  Int.fdiv (s.eatenPellets * 100) s.totalPellets

/-! ### Invariants under study -/

/-- The pellet-accounting invariant: the eaten counter is non-negative,
never exceeds the total, and while the stage is still PLAYING the
consumption ratio is strictly below the 75 percent clear threshold
(otherwise the preceding tick would already have flipped to WON). -/
def PelletInv (s : GameState) : Prop :=
  0 ≤ s.eatenPellets ∧ s.eatenPellets ≤ s.totalPellets ∧
    (s.gameState = GState.PLAYING → 4 * s.eatenPellets < 3 * s.totalPellets)

instance (s : GameState) : Decidable (PelletInv s) := by
  unfold PelletInv; infer_instance

/-- Every cell on the outer border of the grid is a WALL tile. -/
def BorderWalls (m : Maze) : Prop :=
  ∀ gy : Nat, gy < 21 → ∀ gx : Nat, gx < 15 →
    (gx = 0 ∨ gx = 14 ∨ gy = 0 ∨ gy = 20) → mazeGet m gy gx = some 1

instance (m : Maze) : Decidable (BorderWalls m) := by
  unfold BorderWalls; infer_instance

/-- Maze refinement that keeps every WALL cell a WALL (cells may change
otherwise); wall destruction is exactly what violates it. -/
def WallsPreserved (m m' : Maze) : Prop :=
  ∀ gy gx : Int, mazeGet m gy gx = some 1 → mazeGet m' gy gx = some 1

/-- A coordinate pair on the outer border of the grid (stated over the
integer coordinates used by the grid accessors). -/
def OnBorder (gy gx : Int) : Prop :=
  gx = 0 ∨ gx = GRID_WIDTH - 1 ∨ gy = 0 ∨ gy = GRID_HEIGHT - 1

/-! ### Concrete fixtures used by witnesses and counterexamples -/

/-- A fully enclosed maze whose interior is all EMPTY: the shape every
generated maze shares on its border. -/
def mazeOpen : Maze :=
  (List.range 21).map (fun y => (List.range 15).map (fun x =>
    if x = 0 ∨ x = 14 ∨ y = 0 ∨ y = 20 then 1 else 0))

/-- The oracle on which no stochastic event fires. -/
def oracle0 : Oracle :=
  { ghostDirChoice := []
    ghostRespawnRoll := []
    candyRespawnSeq := []
    bonusCandy := none
    bonusFruit := none
    witchSpawn := none
    witchDrift := []
    fragmentVels := [] }

/-- A quiet mid-run state: playing, three lives, player resting at the
aligned cell (1,1) of the open maze, no ghosts or witches. -/
def sBase : GameState :=
  { score := 0
    lives := 3
    gameState := GState.PLAYING
    maze := mazeOpen
    pacman := { x := 36, y := 36, dir := Direction.NONE, nextDir := Direction.NONE, speed := 4 }
    ghosts := []
    witches := []
    popups := []
    wallFragments := []
    powerMode := 0
    wallsLeft := 0
    totalPellets := 100
    eatenPellets := 0
    stage := 1 }

/-- Power mode fully active while a falling witch is about to land
exactly on the player. -/
def sHazardPowered : GameState :=
  { sBase with
    powerMode := 600
    witches := [{ x := 36, y := 34, speed := 2, active := true, phase := 0 }] }

/-- Power mode active, zero wall-break charges, player standing on a
tombstone. -/
def sTombNoCharges : GameState :=
  { sBase with powerMode := 600, maze := mazeSet mazeOpen 1 1 6 }

/-- An EATEN ghost resting off-grid while power mode is active. -/
def gEaten : GhostEntity :=
  { x := 250, y := 250, dir := Direction.NONE, nextDir := Direction.NONE, speed := 2,
    color := "#ff0000", trait := "cape",
    isScared := false, isEaten := true, isDying := false, deathTimer := 0 }

def sEatenPowered : GameState := { sBase with powerMode := 500, ghosts := [gEaten] }

/-- The oracle whose per-ghost respawn roll fires for ghost 0. -/
def oRespawn : Oracle := { oracle0 with ghostRespawnRoll := [true] }

/-- Powered player with charges, one step short of grinding through the
top border wall above column 1. -/
def sBorderBreak : GameState :=
  { sBase with
    powerMode := 600
    wallsLeft := 5
    pacman := { x := 36, y := 16, dir := Direction.UP, nextDir := Direction.NONE, speed := 4 } }

/-- A ghost in the middle of its DYING animation (15 ticks to go). -/
def gDying : GhostEntity :=
  { x := 400, y := 400, dir := Direction.NONE, nextDir := Direction.NONE, speed := 2,
    color := "#9933ff", trait := "hat",
    isScared := false, isEaten := false, isDying := true, deathTimer := 15 }

/-- A NORMAL ghost overlapping the player. -/
def gNormal : GhostEntity :=
  { x := 36, y := 38, dir := Direction.NONE, nextDir := Direction.NONE, speed := 2,
    color := "#444444", trait := "wings",
    isScared := false, isEaten := false, isDying := false, deathTimer := 0 }

/-- A dying ghost sharing the stage with a normal ghost that is about
to take a life. -/
def sDyingReset : GameState := { sBase with ghosts := [gDying, gNormal] }

/-- One life left, player standing on a tombstone, not powered. -/
def sLastLife : GameState := { sBase with lives := 1, maze := mazeSet mazeOpen 1 1 6 }

/-- A scared ghost overlapping the player (fixture for the eaten-ghost
scoring rules). -/
def gScared : GhostEntity :=
  { x := 36, y := 38, dir := Direction.NONE, nextDir := Direction.NONE, speed := 2,
    color := "#00ff00", trait := "stitches",
    isScared := true, isEaten := false, isDying := false, deathTimer := 0 }

/-! ### Grid accessor lemmas -/

theorem mazeGet_mazeSet_self {m : Maze} {gy gx : Int} {c : Nat}
    (h : mazeGet m gy gx = some c) (v : Nat) :
    mazeGet (mazeSet m gy gx v) gy gx = some v := by
  unfold mazeGet mazeSet at *
  by_cases hneg : gy < 0 ∨ gx < 0
  · simp [hneg] at h
  · simp only [hneg, if_false] at h ⊢
    obtain ⟨row, hrow, hcell⟩ := Option.bind_eq_some.mp h
    have hy : gy.toNat < m.length := (List.get?_eq_some.mp hrow).1
    have hx : gx.toNat < row.length := (List.get?_eq_some.mp hcell).1
    rw [hrow]
    simp only [List.get?_set_eq_of_lt _ hy, Option.bind_some]
    exact List.get?_set_eq_of_lt _ hx

theorem mazeGet_mazeSet_ne (m : Maze) (v : Nat) {gy gx gy' gx' : Int}
    (h : ¬ (gy' = gy ∧ gx' = gx)) :
    mazeGet (mazeSet m gy gx v) gy' gx' = mazeGet m gy' gx' := by
  unfold mazeGet mazeSet
  by_cases hneg : gy < 0 ∨ gx < 0
  · simp [hneg]
  · simp only [hneg, if_false]
    by_cases hneg' : gy' < 0 ∨ gx' < 0
    · cases hget : m.get? gy.toNat <;> simp [hneg']
    · simp only [hneg', if_false]
      push_neg at hneg hneg'
      cases hget : m.get? gy.toNat with
      | none => rfl
      | some row =>
        by_cases hyy : gy'.toNat = gy.toNat
        · have hyy' : gy' = gy := by omega
          have hxx : gx'.toNat ≠ gx.toNat := by
            intro hc
            exact h ⟨hyy', by omega⟩
          have hy : gy.toNat < m.length := (List.get?_eq_some.mp hget).1
          rw [hyy, List.get?_set_eq_of_lt _ hy, hget]
          exact List.get?_set_ne _ _ (Ne.symm hxx)
        · rw [List.get?_set_ne _ _ (Ne.symm hyy)]

theorem mazeGet_map (f : Nat → Nat) (m : Maze) (gy gx : Int) :
    mazeGet (m.map (fun row => row.map f)) gy gx = (mazeGet m gy gx).map f := by
  unfold mazeGet
  split
  · rfl
  · rw [List.get?_map]
    cases m.get? gy.toNat <;> simp [List.get?_map]

/-! ### WallsPreserved infrastructure -/

theorem wallsPreserved_refl (m : Maze) : WallsPreserved m m := fun _ _ h => h

theorem wallsPreserved_of_eq {m m' : Maze} (h : m' = m) : WallsPreserved m m' := by
  intro gy gx hw; rw [h]; exact hw

theorem wallsPreserved_trans {a b c : Maze}
    (h1 : WallsPreserved a b) (h2 : WallsPreserved b c) : WallsPreserved a c :=
  fun gy gx h => h2 gy gx (h1 gy gx h)

/-- Writing any value over a cell that is not currently a WALL keeps
every WALL cell a WALL. -/
theorem wallsPreserved_set {m : Maze} {gy gx : Int} {c : Nat}
    (hc : mazeGet m gy gx = some c) (h1 : c ≠ 1) (v : Nat) :
    WallsPreserved m (mazeSet m gy gx v) := by
  intro y x hw
  by_cases hxy : y = gy ∧ x = gx
  · obtain ⟨rfl, rfl⟩ := hxy
    rw [hc] at hw
    cases hw
    exact absurd rfl h1
  · rw [mazeGet_mazeSet_ne m v hxy]
    exact hw

theorem candyRespawnLoop_walls :
    ∀ (fuel : Nat) (draws : List (Nat × Nat)) (m : Maze),
      WallsPreserved m (candyRespawnLoop fuel draws m) := by
  intro fuel
  induction fuel with
  | zero => intro draws m; exact wallsPreserved_refl m
  | succ n ih =>
    intro draws m
    cases draws with
    | nil => exact wallsPreserved_refl m
    | cons d rest =>
      unfold candyRespawnLoop
      dsimp only
      split
      · rename_i hcell
        rcases hcell with hcell | hcell
        · exact wallsPreserved_set hcell (by decide) 3
        · exact wallsPreserved_set hcell (by decide) 3
      · exact ih rest m

/-! ### Per-phase frame lemmas: which parts of the state each phase can
touch. `acct` lemmas say the maze, the pellet counters, the charge
counter and the game state survive the phase unchanged (or, for the
game state, that the phase never produces PLAYING from anything else). -/

theorem resetPositions_acct (s : GameState) :
    (resetPositions s).maze = s.maze ∧
    (resetPositions s).eatenPellets = s.eatenPellets ∧
    (resetPositions s).totalPellets = s.totalPellets ∧
    (resetPositions s).wallsLeft = s.wallsLeft ∧
    (resetPositions s).gameState = s.gameState ∧
    (resetPositions s).powerMode = s.powerMode := by
  unfold resetPositions
  exact ⟨rfl, rfl, rfl, rfl, rfl, rfl⟩

theorem applyLifeLoss_acct (s : GameState) :
    (applyLifeLoss s).maze = s.maze ∧
    (applyLifeLoss s).eatenPellets = s.eatenPellets ∧
    (applyLifeLoss s).totalPellets = s.totalPellets ∧
    (applyLifeLoss s).wallsLeft = s.wallsLeft ∧
    ((applyLifeLoss s).gameState = GState.PLAYING → s.gameState = GState.PLAYING) := by
  unfold applyLifeLoss resetPositions
  split
  · exact ⟨rfl, rfl, rfl, rfl, by intro h; cases h⟩
  · exact ⟨rfl, rfl, rfl, rfl, fun h => h⟩

theorem stepWrap_acct (s : GameState) :
    (stepWrap s).maze = s.maze ∧
    (stepWrap s).eatenPellets = s.eatenPellets ∧
    (stepWrap s).totalPellets = s.totalPellets ∧
    (stepWrap s).wallsLeft = s.wallsLeft ∧
    (stepWrap s).gameState = s.gameState ∧
    (stepWrap s).powerMode = s.powerMode := by
  unfold stepWrap
  exact ⟨rfl, rfl, rfl, rfl, rfl, rfl⟩

theorem stepOob_acct (s : GameState) :
    (stepOob s).maze = s.maze ∧
    (stepOob s).eatenPellets = s.eatenPellets ∧
    (stepOob s).totalPellets = s.totalPellets ∧
    (stepOob s).wallsLeft = s.wallsLeft ∧
    (stepOob s).gameState = s.gameState ∧
    (stepOob s).powerMode = s.powerMode := by
  unfold stepOob
  dsimp only
  split
  · exact resetPositions_acct s
  · exact ⟨rfl, rfl, rfl, rfl, rfl, rfl⟩

theorem stepPowerMode_acct (s : GameState) :
    (stepPowerMode s).maze = s.maze ∧
    (stepPowerMode s).eatenPellets = s.eatenPellets ∧
    (stepPowerMode s).totalPellets = s.totalPellets ∧
    (stepPowerMode s).wallsLeft = s.wallsLeft ∧
    (stepPowerMode s).gameState = s.gameState := by
  unfold stepPowerMode
  dsimp only
  split
  · split
    · exact ⟨rfl, rfl, rfl, rfl, rfl⟩
    · exact ⟨rfl, rfl, rfl, rfl, rfl⟩
  · exact ⟨rfl, rfl, rfl, rfl, rfl⟩

theorem stepPopups_acct (s : GameState) :
    (stepPopups s).maze = s.maze ∧
    (stepPopups s).eatenPellets = s.eatenPellets ∧
    (stepPopups s).totalPellets = s.totalPellets ∧
    (stepPopups s).wallsLeft = s.wallsLeft ∧
    (stepPopups s).gameState = s.gameState := by
  unfold stepPopups
  exact ⟨rfl, rfl, rfl, rfl, rfl⟩

theorem stepFragments_acct (s : GameState) :
    (stepFragments s).maze = s.maze ∧
    (stepFragments s).eatenPellets = s.eatenPellets ∧
    (stepFragments s).totalPellets = s.totalPellets ∧
    (stepFragments s).wallsLeft = s.wallsLeft ∧
    (stepFragments s).gameState = s.gameState := by
  unfold stepFragments
  exact ⟨rfl, rfl, rfl, rfl, rfl⟩

theorem stepWinCheck_acct (s : GameState) :
    (stepWinCheck s).maze = s.maze ∧
    (stepWinCheck s).eatenPellets = s.eatenPellets ∧
    (stepWinCheck s).totalPellets = s.totalPellets ∧
    (stepWinCheck s).wallsLeft = s.wallsLeft := by
  unfold stepWinCheck
  split
  · exact ⟨rfl, rfl, rfl, rfl⟩
  · exact ⟨rfl, rfl, rfl, rfl⟩

theorem stepWinCheck_playing (s : GameState)
    (h : (stepWinCheck s).gameState = GState.PLAYING) :
    s.gameState = GState.PLAYING ∧ ¬ winCond s := by
  unfold stepWinCheck at h
  split at h
  · cases h
  · exact ⟨h, by assumption⟩

theorem stepWitchSpawn_acct (o : Oracle) (s : GameState) :
    (stepWitchSpawn o s).maze = s.maze ∧
    (stepWitchSpawn o s).eatenPellets = s.eatenPellets ∧
    (stepWitchSpawn o s).totalPellets = s.totalPellets ∧
    (stepWitchSpawn o s).wallsLeft = s.wallsLeft ∧
    (stepWitchSpawn o s).gameState = s.gameState := by
  unfold stepWitchSpawn
  split
  · exact ⟨rfl, rfl, rfl, rfl, rfl⟩
  · split
    · exact ⟨rfl, rfl, rfl, rfl, rfl⟩
    · exact ⟨rfl, rfl, rfl, rfl, rfl⟩

theorem stepBonusCandy_acct (o : Oracle) (s : GameState) :
    WallsPreserved s.maze (stepBonusCandy o s).maze ∧
    (stepBonusCandy o s).eatenPellets = s.eatenPellets ∧
    (stepBonusCandy o s).totalPellets = s.totalPellets ∧
    (stepBonusCandy o s).wallsLeft = s.wallsLeft ∧
    (stepBonusCandy o s).gameState = s.gameState := by
  unfold stepBonusCandy
  dsimp only
  split
  · exact ⟨wallsPreserved_refl _, rfl, rfl, rfl, rfl⟩
  · split
    · rename_i hcell
      exact ⟨wallsPreserved_set hcell (by decide) 3, rfl, rfl, rfl, rfl⟩
    · exact ⟨wallsPreserved_refl _, rfl, rfl, rfl, rfl⟩

theorem stepBonusFruit_acct (o : Oracle) (s : GameState) :
    WallsPreserved s.maze (stepBonusFruit o s).maze ∧
    (stepBonusFruit o s).eatenPellets = s.eatenPellets ∧
    (stepBonusFruit o s).totalPellets = s.totalPellets ∧
    (stepBonusFruit o s).wallsLeft = s.wallsLeft ∧
    (stepBonusFruit o s).gameState = s.gameState := by
  unfold stepBonusFruit
  dsimp only
  split
  · exact ⟨wallsPreserved_refl _, rfl, rfl, rfl, rfl⟩
  · split
    · rename_i hcell
      exact ⟨wallsPreserved_set hcell (by decide) 7, rfl, rfl, rfl, rfl⟩
    · exact ⟨wallsPreserved_refl _, rfl, rfl, rfl, rfl⟩

theorem stepGhostAt_acct (o : Oracle) (pac : Int × Int) (i : Nat) (s : GameState) :
    (stepGhostAt o pac i s).maze = s.maze ∧
    (stepGhostAt o pac i s).eatenPellets = s.eatenPellets ∧
    (stepGhostAt o pac i s).totalPellets = s.totalPellets ∧
    (stepGhostAt o pac i s).wallsLeft = s.wallsLeft ∧
    ((stepGhostAt o pac i s).gameState = GState.PLAYING → s.gameState = GState.PLAYING) := by
  unfold stepGhostAt
  cases hg : s.ghosts.get? i with
  | none => exact ⟨rfl, rfl, rfl, rfl, fun h => h⟩
  | some g0 =>
    dsimp only
    by_cases hd : g0.isDying = true
    · rw [if_pos hd]
      exact ⟨rfl, rfl, rfl, rfl, fun h => h⟩
    · rw [if_neg hd]
      repeat' split
      all_goals
        first
          | exact ⟨rfl, rfl, rfl, rfl, fun h => h⟩
          | exact ⟨(applyLifeLoss_acct _).1, (applyLifeLoss_acct _).2.1,
              (applyLifeLoss_acct _).2.2.1, (applyLifeLoss_acct _).2.2.2.1,
              (applyLifeLoss_acct _).2.2.2.2⟩

theorem stepWitchAt_acct (o : Oracle) (pac : Int × Int) (i : Nat) (s : GameState) :
    (stepWitchAt o pac i s).maze = s.maze ∧
    (stepWitchAt o pac i s).eatenPellets = s.eatenPellets ∧
    (stepWitchAt o pac i s).totalPellets = s.totalPellets ∧
    (stepWitchAt o pac i s).wallsLeft = s.wallsLeft ∧
    ((stepWitchAt o pac i s).gameState = GState.PLAYING → s.gameState = GState.PLAYING) := by
  unfold stepWitchAt
  cases hw : s.witches.get? i with
  | none => exact ⟨rfl, rfl, rfl, rfl, fun h => h⟩
  | some w0 =>
    dsimp only
    split
    · exact ⟨(applyLifeLoss_acct _).1, (applyLifeLoss_acct _).2.1,
        (applyLifeLoss_acct _).2.2.1, (applyLifeLoss_acct _).2.2.2.1,
        (applyLifeLoss_acct _).2.2.2.2⟩
    · exact ⟨rfl, rfl, rfl, rfl, fun h => h⟩

theorem breakWallAt_acct (o : Oracle) (p1 : Entity) (s : GameState) :
    (breakWallAt o p1 s).eatenPellets = s.eatenPellets ∧
    (breakWallAt o p1 s).totalPellets = s.totalPellets ∧
    (breakWallAt o p1 s).gameState = s.gameState ∧
    ((breakWallAt o p1 s).wallsLeft = s.wallsLeft ∨
      (breakWallAt o p1 s).wallsLeft = s.wallsLeft - 1) := by
  unfold breakWallAt
  dsimp only
  split
  · exact ⟨rfl, rfl, rfl, Or.inr rfl⟩
  · exact ⟨rfl, rfl, rfl, Or.inl rfl⟩

theorem stepPacmanMove_acct (o : Oracle) (s : GameState) :
    (stepPacmanMove o s).eatenPellets = s.eatenPellets ∧
    (stepPacmanMove o s).totalPellets = s.totalPellets ∧
    (stepPacmanMove o s).gameState = s.gameState := by
  unfold stepPacmanMove
  dsimp only
  repeat' split
  all_goals
    first
      | exact ⟨rfl, rfl, rfl⟩
      | exact ⟨(breakWallAt_acct o _ s).1, (breakWallAt_acct o _ s).2.1,
          (breakWallAt_acct o _ s).2.2.1⟩

theorem stepPacmanMove_walls_nonneg (o : Oracle) (s : GameState) (h : 0 ≤ s.wallsLeft) :
    0 ≤ (stepPacmanMove o s).wallsLeft := by
  unfold stepPacmanMove
  dsimp only
  repeat' split
  all_goals
    first
      | exact h
      | (rcases (breakWallAt_acct o _ s).2.2.2 with h1 | h1 <;> rw [h1] <;> omega)

/-- Outside power mode with charges, the player phase never writes to
the maze; and when it does write, the power guard held. -/
theorem stepPacmanMove_maze (o : Oracle) (s : GameState) :
    (stepPacmanMove o s).maze = s.maze ∨ (0 < s.powerMode ∧ 0 < s.wallsLeft) := by
  unfold stepPacmanMove
  dsimp only
  repeat' split
  all_goals
    first
      | exact Or.inl rfl
      | (rename_i hguard; exact Or.inr hguard)

theorem stepTileEffect_acct (o : Oracle) (pac : Int × Int) (s : GameState) :
    (stepTileEffect o pac s).totalPellets = s.totalPellets ∧
    s.eatenPellets ≤ (stepTileEffect o pac s).eatenPellets ∧
    (stepTileEffect o pac s).eatenPellets ≤ s.eatenPellets + 1 ∧
    ((stepTileEffect o pac s).gameState = GState.PLAYING → s.gameState = GState.PLAYING) := by
  unfold stepTileEffect
  dsimp only
  split
  · refine ⟨rfl, ?_, ?_, fun h => h⟩ <;> (dsimp only; omega)
  · refine ⟨rfl, ?_, ?_, fun h => h⟩ <;> (dsimp only; omega)
  · split
    · refine ⟨(applyLifeLoss_acct s).2.2.1, ?_, ?_, (applyLifeLoss_acct s).2.2.2.2⟩
      · exact le_of_eq ((applyLifeLoss_acct s).2.1).symm
      · exact le_trans (le_of_eq (applyLifeLoss_acct s).2.1) (by omega)
    · split
      · refine ⟨rfl, ?_, ?_, fun h => h⟩ <;> (dsimp only; omega)
      · refine ⟨rfl, ?_, ?_, fun h => h⟩ <;> (dsimp only; omega)
  · refine ⟨rfl, ?_, ?_, fun h => h⟩ <;> (dsimp only; omega)
  · exact ⟨rfl, le_rfl, by omega, fun h => h⟩

theorem stepTileEffect_walls_nonneg (o : Oracle) (pac : Int × Int) (s : GameState)
    (h : 0 ≤ s.wallsLeft) : 0 ≤ (stepTileEffect o pac s).wallsLeft := by
  unfold stepTileEffect
  dsimp only
  split
  · exact h
  · dsimp only; omega
  · split
    · rw [(applyLifeLoss_acct s).2.2.2.1]; exact h
    · split
      · rename_i hwl
        dsimp only at hwl ⊢
        omega
      · exact h
  · exact h
  · exact h

theorem stepTileEffect_wallsPres (o : Oracle) (pac : Int × Int) (s : GameState) :
    WallsPreserved s.maze (stepTileEffect o pac s).maze := by
  unfold stepTileEffect
  dsimp only
  split
  · rename_i hcell
    exact wallsPreserved_set hcell (by decide) 0
  · rename_i hcell
    exact wallsPreserved_trans (wallsPreserved_set hcell (by decide) 0)
      (candyRespawnLoop_walls 100 o.candyRespawnSeq _)
  · rename_i hcell
    split
    · rw [(applyLifeLoss_acct s).1]
      exact wallsPreserved_set hcell (by decide) 0
    · split
      · exact wallsPreserved_set hcell (by decide) 0
      · exact wallsPreserved_set hcell (by decide) 0
  · rename_i hcell
    exact wallsPreserved_set hcell (by decide) 0
  · exact wallsPreserved_refl _

/-- Lift of the `acct` frame facts through a `foldl` over an index
list, as used by the ghost and witch loops. -/
theorem foldl_acct (f : Nat → GameState → GameState)
    (hf : ∀ (i : Nat) (s : GameState), (f i s).maze = s.maze ∧
      (f i s).eatenPellets = s.eatenPellets ∧
      (f i s).totalPellets = s.totalPellets ∧
      (f i s).wallsLeft = s.wallsLeft ∧
      ((f i s).gameState = GState.PLAYING → s.gameState = GState.PLAYING)) :
    ∀ (l : List Nat) (s : GameState),
      (l.foldl (fun s i => f i s) s).maze = s.maze ∧
      (l.foldl (fun s i => f i s) s).eatenPellets = s.eatenPellets ∧
      (l.foldl (fun s i => f i s) s).totalPellets = s.totalPellets ∧
      (l.foldl (fun s i => f i s) s).wallsLeft = s.wallsLeft ∧
      ((l.foldl (fun s i => f i s) s).gameState = GState.PLAYING →
        s.gameState = GState.PLAYING) := by
  intro l
  induction l with
  | nil => intro s; exact ⟨rfl, rfl, rfl, rfl, fun h => h⟩
  | cons a t ih =>
    intro s
    have h1 := hf a s
    have h2 := ih (f a s)
    simp only [List.foldl_cons]
    exact ⟨h2.1.trans h1.1, h2.2.1.trans h1.2.1, h2.2.2.1.trans h1.2.2.1,
      h2.2.2.2.1.trans h1.2.2.2.1, fun h => h1.2.2.2.2 (h2.2.2.2.2 h)⟩

theorem stepGhosts_acct (o : Oracle) (pac : Int × Int) (s : GameState) :
    (stepGhosts o pac s).maze = s.maze ∧
    (stepGhosts o pac s).eatenPellets = s.eatenPellets ∧
    (stepGhosts o pac s).totalPellets = s.totalPellets ∧
    (stepGhosts o pac s).wallsLeft = s.wallsLeft ∧
    ((stepGhosts o pac s).gameState = GState.PLAYING → s.gameState = GState.PLAYING) :=
  foldl_acct (stepGhostAt o pac) (stepGhostAt_acct o pac) (List.range s.ghosts.length) s

theorem stepWitches_acct (o : Oracle) (pac : Int × Int) (s : GameState) :
    (stepWitches o pac s).maze = s.maze ∧
    (stepWitches o pac s).eatenPellets = s.eatenPellets ∧
    (stepWitches o pac s).totalPellets = s.totalPellets ∧
    (stepWitches o pac s).wallsLeft = s.wallsLeft ∧
    ((stepWitches o pac s).gameState = GState.PLAYING → s.gameState = GState.PLAYING) := by
  unfold stepWitches
  dsimp only
  have h := foldl_acct (stepWitchAt o pac) (stepWitchAt_acct o pac) (List.range s.witches.length) s
  exact ⟨h.1, h.2.1, h.2.2.1, h.2.2.2.1, h.2.2.2.2⟩

/-- winCond only reads the two pellet counters. -/
theorem winCond_ext {s t : GameState} (he : s.eatenPellets = t.eatenPellets)
    (ht : s.totalPellets = t.totalPellets) : winCond s ↔ winCond t := by
  unfold winCond
  rw [he, ht]

theorem update_not_playing {o : Oracle} {s : GameState}
    (h : s.gameState ≠ GState.PLAYING) : update o s = s := by
  unfold update
  rw [if_pos h]

theorem update_playing {o : Oracle} {s : GameState}
    (h : s.gameState = GState.PLAYING) : update o s = updateBody o s := by
  unfold update
  rw [if_neg (by simp [h])]

/-- The composite frame facts of one full tick body: the pellet total
is untouched, the eaten counter grows by at most one, a state still
PLAYING after the tick is below the win threshold, and a non-negative
charge counter stays non-negative. -/
theorem updateBody_acct (o : Oracle) (s : GameState) :
    (updateBody o s).totalPellets = s.totalPellets ∧
    s.eatenPellets ≤ (updateBody o s).eatenPellets ∧
    (updateBody o s).eatenPellets ≤ s.eatenPellets + 1 ∧
    ((updateBody o s).gameState = GState.PLAYING → ¬ winCond (updateBody o s)) ∧
    (0 ≤ s.wallsLeft → 0 ≤ (updateBody o s).wallsLeft) := by
  unfold updateBody
  dsimp only
  generalize h1 : stepPacmanMove o s = q1
  generalize h2 : stepWrap q1 = q2
  generalize hpac : (q2.pacman.x, q2.pacman.y) = pac
  generalize h3 : stepOob q2 = q3
  generalize h4 : stepTileEffect o pac q3 = q4
  generalize h5 : stepPowerMode q4 = q5
  generalize h6 : stepPopups q5 = q6
  generalize h7 : stepFragments q6 = q7
  generalize h8 : stepGhosts o pac q7 = q8
  generalize h9 : stepWinCheck q8 = q9
  generalize h10 : stepBonusCandy o q9 = q10
  generalize h11 : stepBonusFruit o q10 = q11
  generalize h12 : stepWitchSpawn o q11 = q12
  generalize h13 : stepWitches o pac q12 = q13
  have a1 := stepPacmanMove_acct o s; rw [h1] at a1
  have n1 : 0 ≤ s.wallsLeft → 0 ≤ q1.wallsLeft := by
    intro hh; rw [← h1]; exact stepPacmanMove_walls_nonneg o s hh
  have a2 := stepWrap_acct q1; rw [h2] at a2
  have a3 := stepOob_acct q2; rw [h3] at a3
  have a4 := stepTileEffect_acct o pac q3; rw [h4] at a4
  have n4 : 0 ≤ q3.wallsLeft → 0 ≤ q4.wallsLeft := by
    intro hh; rw [← h4]; exact stepTileEffect_walls_nonneg o pac q3 hh
  have a5 := stepPowerMode_acct q4; rw [h5] at a5
  have a6 := stepPopups_acct q5; rw [h6] at a6
  have a7 := stepFragments_acct q6; rw [h7] at a7
  have a8 := stepGhosts_acct o pac q7; rw [h8] at a8
  have a9 := stepWinCheck_acct q8; rw [h9] at a9
  have p9 : q9.gameState = GState.PLAYING → q8.gameState = GState.PLAYING ∧ ¬ winCond q8 := by
    intro hh; rw [← h9] at hh; exact stepWinCheck_playing q8 hh
  have a10 := stepBonusCandy_acct o q9; rw [h10] at a10
  have a11 := stepBonusFruit_acct o q10; rw [h11] at a11
  have a12 := stepWitchSpawn_acct o q11; rw [h12] at a12
  have a13 := stepWitches_acct o pac q12; rw [h13] at a13
  obtain ⟨e1, t1, g1⟩ := a1
  obtain ⟨m2, e2, t2, w2, g2, pw2⟩ := a2
  obtain ⟨m3, e3, t3, w3, g3, pw3⟩ := a3
  obtain ⟨t4, e4a, e4b, g4⟩ := a4
  obtain ⟨m5, e5, t5, w5, g5⟩ := a5
  obtain ⟨m6, e6, t6, w6, g6⟩ := a6
  obtain ⟨m7, e7, t7, w7, g7⟩ := a7
  obtain ⟨m8, e8, t8, w8, g8⟩ := a8
  obtain ⟨m9, e9, t9, w9⟩ := a9
  obtain ⟨m10, e10, t10, w10, g10⟩ := a10
  obtain ⟨m11, e11, t11, w11, g11⟩ := a11
  obtain ⟨m12, e12, t12, w12, g12⟩ := a12
  obtain ⟨m13, e13, t13, w13, g13⟩ := a13
  refine ⟨by omega, by omega, by omega, ?_, ?_⟩
  · intro hpl
    have hq12 := g13 hpl
    rw [g12] at hq12
    rw [g11] at hq12
    rw [g10] at hq12
    obtain ⟨-, hnw⟩ := p9 hq12
    have heq : winCond q13 ↔ winCond q8 :=
      winCond_ext (by omega) (by omega)
    exact fun hw => hnw (heq.mp hw)
  · intro h0
    have w1 := n1 h0
    have w4 := n4 (by omega)
    omega

theorem updateBody_wallsPres (o : Oracle) (s : GameState)
    (hp : s.powerMode ≤ 0 ∨ s.wallsLeft ≤ 0) :
    WallsPreserved s.maze (updateBody o s).maze := by
  unfold updateBody
  dsimp only
  generalize h1 : stepPacmanMove o s = q1
  generalize h2 : stepWrap q1 = q2
  generalize hpac : (q2.pacman.x, q2.pacman.y) = pac
  generalize h3 : stepOob q2 = q3
  generalize h4 : stepTileEffect o pac q3 = q4
  generalize h5 : stepPowerMode q4 = q5
  generalize h6 : stepPopups q5 = q6
  generalize h7 : stepFragments q6 = q7
  generalize h8 : stepGhosts o pac q7 = q8
  generalize h9 : stepWinCheck q8 = q9
  generalize h10 : stepBonusCandy o q9 = q10
  generalize h11 : stepBonusFruit o q10 = q11
  generalize h12 : stepWitchSpawn o q11 = q12
  generalize h13 : stepWitches o pac q12 = q13
  have m1 : q1.maze = s.maze := by
    rcases stepPacmanMove_maze o s with hm | hg
    · rw [← h1]; exact hm
    · rcases hp with hp | hp <;> omega
  have pres4 : WallsPreserved q3.maze q4.maze := by
    rw [← h4]; exact stepTileEffect_wallsPres o pac q3
  have pres10 : WallsPreserved q9.maze q10.maze := by
    rw [← h10]; exact (stepBonusCandy_acct o q9).1
  have pres11 : WallsPreserved q10.maze q11.maze := by
    rw [← h11]; exact (stepBonusFruit_acct o q10).1
  have m2 : q2.maze = q1.maze := by rw [← h2]; exact (stepWrap_acct q1).1
  have m3 : q3.maze = q2.maze := by rw [← h3]; exact (stepOob_acct q2).1
  have m5 : q5.maze = q4.maze := by rw [← h5]; exact (stepPowerMode_acct q4).1
  have m6 : q6.maze = q5.maze := by rw [← h6]; exact (stepPopups_acct q5).1
  have m7 : q7.maze = q6.maze := by rw [← h7]; exact (stepFragments_acct q6).1
  have m8 : q8.maze = q7.maze := by rw [← h8]; exact (stepGhosts_acct o pac q7).1
  have m9 : q9.maze = q8.maze := by rw [← h9]; exact (stepWinCheck_acct q8).1
  have m12 : q12.maze = q11.maze := by rw [← h12]; exact (stepWitchSpawn_acct o q11).1
  have m13 : q13.maze = q12.maze := by rw [← h13]; exact (stepWitches_acct o pac q12).1
  refine wallsPreserved_trans (wallsPreserved_of_eq ?_)
    (wallsPreserved_trans pres4 (wallsPreserved_trans (wallsPreserved_of_eq ?_)
      (wallsPreserved_trans pres10 (wallsPreserved_trans pres11 (wallsPreserved_of_eq ?_)))))
  · rw [m3, m2, m1]
  · rw [m9, m8, m7, m6, m5]
  · rw [m13, m12]

/-! ### The generated maze is enclosed by border walls -/

theorem shuffledDirs_mem (r : Nat) {d : Int × Int} (hd : d ∈ shuffledDirs r) :
    d ∈ ([((0 : Int), (2 : Int)), (0, -2), (2, 0), (-2, 0)] : List (Int × Int)) := by
  unfold shuffledDirs at hd
  rw [List.getD_eq_get?] at hd
  rcases hget : (([((0 : Int), (2 : Int)), (0, -2), (2, 0), (-2, 0)]).permutations).get? (r % 24)
    with _ | l
  · rw [hget] at hd
    simpa using hd
  · rw [hget] at hd
    simp only [Option.getD_some] at hd
    have hperm := List.mem_permutations.mp (List.get?_mem hget)
    exact hperm.mem_iff.mp hd

theorem onBorder_ne_interior {gy gx y x : Int} (hb : OnBorder gy gx)
    (hx0 : 0 < x) (hx1 : x < GRID_WIDTH - 1) (hy0 : 0 < y) (hy1 : y < GRID_HEIGHT - 1) :
    ¬ (gy = y ∧ gx = x) := by
  unfold OnBorder GRID_WIDTH GRID_HEIGHT at *
  rintro ⟨rfl, rfl⟩
  rcases hb with h | h | h | h <;> omega

theorem walkDirsAux_border
    (step : Int → Int → Maze → Nat → Maze × Nat)
    (hstep : ∀ (x y : Int) (m : Maze) (c : Nat),
      0 < x → x < GRID_WIDTH - 1 → 0 < y → y < GRID_HEIGHT - 1 →
      ∀ gy gx : Int, OnBorder gy gx → mazeGet (step x y m c).1 gy gx = mazeGet m gy gx)
    (x y : Int) (hx0 : 0 < x) (hx1 : x < GRID_WIDTH - 1)
    (hy0 : 0 < y) (hy1 : y < GRID_HEIGHT - 1) :
    ∀ (ds : List (Int × Int)),
      (∀ d ∈ ds, d ∈ ([((0 : Int), (2 : Int)), (0, -2), (2, 0), (-2, 0)] : List (Int × Int))) →
      ∀ (m : Maze) (c : Nat) (gy gx : Int), OnBorder gy gx →
        mazeGet (walkDirsAux step x y ds m c).1 gy gx = mazeGet m gy gx := by
  intro ds
  induction ds with
  | nil =>
    intro _ m c gy gx _
    rfl
  | cons d rest ih =>
    intro hmem m c gy gx hb
    obtain ⟨dx, dy⟩ := d
    have hmem' : ∀ e ∈ rest, e ∈ ([((0 : Int), (2 : Int)), (0, -2), (2, 0), (-2, 0)] :
        List (Int × Int)) := fun e he => hmem e (List.mem_cons_of_mem _ he)
    unfold walkDirsAux
    dsimp only
    split
    · rename_i hguard
      obtain ⟨hnx0, hnx1, hny0, hny1, -⟩ := hguard
      have hdmem := hmem (dx, dy) (List.mem_cons_self _ _)
      have hcarve : 0 < x + dx / 2 ∧ x + dx / 2 < GRID_WIDTH - 1 ∧
          0 < y + dy / 2 ∧ y + dy / 2 < GRID_HEIGHT - 1 := by
        unfold GRID_WIDTH GRID_HEIGHT at *
        fin_cases hdmem <;> constructor <;> simp_all <;> omega
      rw [ih hmem' _ _ gy gx hb, hstep _ _ _ _ hnx0 hnx1 hny0 hny1 gy gx hb,
        mazeGet_mazeSet_ne _ 0
          (onBorder_ne_interior hb hcarve.1 hcarve.2.1 hcarve.2.2.1 hcarve.2.2.2)]
    · exact ih hmem' m c gy gx hb

theorem walk_border (rand : Nat → Nat) :
    ∀ (fuel : Nat) (x y : Int), 0 < x → x < GRID_WIDTH - 1 → 0 < y → y < GRID_HEIGHT - 1 →
      ∀ (m : Maze) (c : Nat) (gy gx : Int), OnBorder gy gx →
        mazeGet (walk rand fuel x y m c).1 gy gx = mazeGet m gy gx := by
  intro fuel
  induction fuel with
  | zero =>
    intro x y _ _ _ _ m c gy gx _
    rfl
  | succ n ih =>
    intro x y hx0 hx1 hy0 hy1 m c gy gx hb
    unfold walk
    dsimp only
    rw [walkDirsAux_border (walk rand n)
        (fun x' y' m' c' a b c'' d gy' gx' hb' => ih x' y' a b c'' d m' c' gy' gx' hb')
        x y hx0 hx1 hy0 hy1 (shuffledDirs (rand c))
        (fun d hd => shuffledDirs_mem (rand c) hd) _ _ gy gx hb]
    exact mazeGet_mazeSet_ne m 0 (onBorder_ne_interior hb hx0 hx1 hy0 hy1)

theorem generateMaze_borderWalls (rand : Nat → Nat) (fuel : Nat) :
    BorderWalls (generateMaze rand fuel) := by
  intro gy hgy gx hgx hb
  have hbI : OnBorder (gy : Int) (gx : Int) := by
    unfold OnBorder GRID_WIDTH GRID_HEIGHT
    push_cast
    omega
  unfold generateMaze
  dsimp only
  have h7 : Int.fdiv GRID_WIDTH 2 = 7 := by decide
  have h10 : Int.fdiv GRID_HEIGHT 2 = 10 := by decide
  rw [h7, h10]
  simp only [List.foldl_cons, List.foldl_nil]
  rw [mazeGet_mazeSet_ne _ 5
    (onBorder_ne_interior hbI (by decide) (by decide) (by decide) (by decide))]
  rw [mazeGet_map]
  rw [mazeGet_mazeSet_ne _ 4
    (onBorder_ne_interior hbI (by decide) (by decide) (by decide) (by decide))]
  repeat rw [mazeGet_mazeSet_ne _ 0
    (onBorder_ne_interior hbI (by decide) (by decide) (by decide) (by decide))]
  rw [walk_border rand fuel 1 1 (by decide) (by decide) (by decide) (by decide) _ 0
    (gy : Int) (gx : Int) hbI]
  have hbase : mazeGet (List.replicate GRID_HEIGHT.toNat (List.replicate GRID_WIDTH.toNat 1))
      (gy : Int) (gx : Int) = some 1 := by
    unfold mazeGet
    rw [if_neg (by omega)]
    rw [Int.toNat_ofNat, Int.toNat_ofNat]
    rw [List.get?_eq_getElem?, List.getElem?_replicate]
    rw [if_pos (by unfold GRID_HEIGHT; omega)]
    simp only [Option.some_bind]
    rw [List.get?_eq_getElem?, List.getElem?_replicate]
    rw [if_pos (by unfold GRID_WIDTH; omega)]
  rw [hbase]
  rfl

/-! ### Auxiliary lemmas for the individual claims -/

/-- Movement, direction choice and wrap leave a ghost's three state
flags untouched. -/
theorem ghostAdvance_flags (o : Oracle) (i : Nat) (s : GameState) (g : GhostEntity) :
    (ghostAdvance o i s g).isScared = g.isScared ∧
    (ghostAdvance o i s g).isEaten = g.isEaten ∧
    (ghostAdvance o i s g).isDying = g.isDying := by
  unfold ghostAdvance
  dsimp only
  repeat' split
  all_goals exact ⟨rfl, rfl, rfl⟩

/-- Rounding a tile-aligned coordinate recovers the tile index. -/
theorem roundDiv36_mul (g : Int) : roundDiv36 (g * TILE_SIZE) = g := by
  unfold roundDiv36 TILE_SIZE
  rw [Int.fdiv_eq_ediv _ (by omega)]
  omega

/-- The life-loss updater never reads or writes the power-mode timer:
invincibility plays no part in it. -/
theorem applyLifeLoss_powerMode (s : GameState) (pm : Int) :
    applyLifeLoss { s with powerMode := pm } = { applyLifeLoss s with powerMode := pm } := by
  unfold applyLifeLoss resetPositions
  dsimp only
  split
  · rfl
  · rfl

/-- The whole witch phase is oblivious to the power-mode timer: running
it with any replaced timer yields the same state with that timer. -/
theorem stepWitchAt_powerMode (o : Oracle) (pac : Int × Int) (i : Nat)
    (s : GameState) (pm : Int) :
    stepWitchAt o pac i { s with powerMode := pm } =
      { stepWitchAt o pac i s with powerMode := pm } := by
  unfold stepWitchAt
  dsimp only
  cases hw : s.witches.get? i with
  | none => rfl
  | some w0 =>
    dsimp only
    split
    · exact applyLifeLoss_powerMode { s with witches := s.witches.set i { x := w0.x + o.witchDrift.getD i 0 * 3, y := w0.y + w0.speed, speed := w0.speed, active := false, phase := w0.phase } } pm
    · rfl

/-- With a random stream that keeps drawing the top-left wall cell, the
initial candy placement loop places nothing, no matter how long it
runs: the source's unbounded `while (placed < 10)` never exits. -/
theorem placeCandies_stuck {m : Maze} (hm : mazeGet m 0 0 = some 1) :
    ∀ (fuel step : Nat), (placeCandies (fun _ => (0, 0)) fuel step 0 m).2 = 0 := by
  intro fuel
  induction fuel with
  | zero => intro step; rfl
  | succ n ih =>
    intro step
    unfold placeCandies
    dsimp only
    rw [if_neg (by omega)]
    rw [if_neg (by simp [hm])]
    exact ih (step + 1)

/-- Same for the tombstone placement loop. -/
theorem placeTombstones_stuck {m : Maze} (hm : mazeGet m 0 0 = some 1) :
    ∀ (fuel step : Nat), (placeTombstones (fun _ => (0, 0)) fuel step 0 m).2 = 0 := by
  intro fuel
  induction fuel with
  | zero => intro step; rfl
  | succ n ih =>
    intro step
    unfold placeTombstones
    dsimp only
    rw [if_neg (by omega)]
    rw [if_neg (by simp [hm])]
    exact ih (step + 1)

/-- The bounded respawn loop gives up silently: when no draw in the
stream is eligible, the maze is returned unchanged. -/
theorem candyRespawnLoop_giveup :
    ∀ (fuel : Nat) (draws : List (Nat × Nat)) (m : Maze),
      (∀ d ∈ draws,
        ¬ (mazeGet m ((d.2 % 21 : Nat) : Int) ((d.1 % 15 : Nat) : Int) = some 2 ∨
           mazeGet m ((d.2 % 21 : Nat) : Int) ((d.1 % 15 : Nat) : Int) = some 0)) →
      candyRespawnLoop fuel draws m = m := by
  intro fuel
  induction fuel with
  | zero => intro draws m _; rfl
  | succ n ih =>
    intro draws m hdraws
    cases draws with
    | nil => rfl
    | cons d rest =>
      unfold candyRespawnLoop
      dsimp only
      rw [if_neg (hdraws d (List.mem_cons_self _ _))]
      exact ih rest m (fun e he => hdraws e (List.mem_cons_of_mem _ he))

/-- The respawn loop inspects at most its first 100 draws: its fuel
bounds the number of attempts. -/
theorem candyRespawnLoop_take :
    ∀ (fuel : Nat) (draws : List (Nat × Nat)) (m : Maze),
      candyRespawnLoop fuel draws m = candyRespawnLoop fuel (draws.take fuel) m := by
  intro fuel
  induction fuel with
  | zero => intro draws m; rfl
  | succ n ih =>
    intro draws m
    cases draws with
    | nil => rfl
    | cons d rest =>
      rw [List.take_succ_cons]
      unfold candyRespawnLoop
      dsimp only
      split
      · rfl
      · exact ih rest m

/-! ### The claims -/

/-- C2: within a stage, `eatenPellets` never exceeds `totalPellets` and
the consumption percentage is monotonically non-decreasing across
ticks. Stated as an inductive invariant: `PelletInv` (eaten counter in
range, and strictly below the 75 percent threshold while PLAYING) is
preserved by every tick, the total is untouched, the eaten counter
never decreases, and the displayed percentage never decreases. The
hypothesis `4 ≤ totalPellets` holds of every generated stage (the
hazard chamber alone contributes eight pellets). -/
theorem C2_pellet_accounting (o : Oracle) (s : GameState)
    (ht : 4 ≤ s.totalPellets) (hinv : PelletInv s) :
    PelletInv (update o s) ∧
    s.eatenPellets ≤ (update o s).eatenPellets ∧
    (update o s).totalPellets = s.totalPellets ∧
    consumptionRate s ≤ consumptionRate (update o s) := by
  by_cases hpl : s.gameState = GState.PLAYING
  · rw [update_playing hpl]
    obtain ⟨t0, e1, e2, gw, wn⟩ := updateBody_acct o s
    obtain ⟨he0, hle, hq⟩ := hinv
    have h34 : 4 * s.eatenPellets < 3 * s.totalPellets := hq hpl
    refine ⟨⟨by omega, by omega, ?_⟩, e1, t0, ?_⟩
    · intro hpl2
      have hnw := gw hpl2
      by_contra hcon
      push_neg at hcon
      exact hnw ⟨by omega, Or.inr (by omega)⟩
    · unfold consumptionRate
      rw [t0]
      rw [Int.fdiv_eq_ediv _ (by omega), Int.fdiv_eq_ediv _ (by omega)]
      exact Int.ediv_le_ediv (by omega) (by omega)
  · rw [update_not_playing hpl]
    exact ⟨hinv, le_rfl, rfl, le_rfl⟩

theorem C2_pellet_accounting_witness :
    (4 ≤ sBase.totalPellets ∧ PelletInv sBase) ∧
    (PelletInv (update oracle0 sBase) ∧
     sBase.eatenPellets ≤ (update oracle0 sBase).eatenPellets ∧
     (update oracle0 sBase).totalPellets = sBase.totalPellets ∧
     consumptionRate sBase ≤ consumptionRate (update oracle0 sBase)) :=
  ⟨⟨by decide, by decide⟩, C2_pellet_accounting oracle0 sBase (by decide) (by decide)⟩

/-- C3 (amended): the wall-break charge counter never becomes negative,
and a WALL destroy event only occurs when the charge counter was
strictly positive beforehand — but a TOMBSTONE destroy under power mode
happens regardless of the charge counter, consuming a charge only when
one is available. -/
theorem C3_charge_floor (o : Oracle) (s : GameState) :
    (0 ≤ s.wallsLeft → 0 ≤ (update o s).wallsLeft) ∧
    ((stepPacmanMove o s).maze ≠ s.maze → 0 < s.powerMode ∧ 0 < s.wallsLeft) ∧
    (∀ pac : Int × Int,
      mazeGet s.maze (roundDiv36 pac.2) (roundDiv36 pac.1) = some 6 → 0 < s.powerMode →
      mazeGet (stepTileEffect o pac s).maze (roundDiv36 pac.2) (roundDiv36 pac.1) = some 0 ∧
      (stepTileEffect o pac s).wallsLeft =
        (if 0 < s.wallsLeft then s.wallsLeft - 1 else s.wallsLeft) ∧
      (stepTileEffect o pac s).score = s.score + 100) := by
  refine ⟨?_, ?_, ?_⟩
  · intro h0
    by_cases hpl : s.gameState = GState.PLAYING
    · rw [update_playing hpl]
      exact (updateBody_acct o s).2.2.2.2 h0
    · rw [update_not_playing hpl]
      exact h0
  · intro hne
    rcases stepPacmanMove_maze o s with hm | hg
    · exact absurd hm hne
    · exact hg
  · intro pac hcell hpm
    unfold stepTileEffect
    dsimp only
    rw [hcell]
    rw [if_neg (by omega)]
    dsimp only
    split
    · exact ⟨mazeGet_mazeSet_self hcell 0, rfl, rfl⟩
    · exact ⟨mazeGet_mazeSet_self hcell 0, rfl, rfl⟩

theorem C3_charge_floor_witness :
    0 ≤ (update oracle0 sTombNoCharges).wallsLeft ∧
    mazeGet (stepTileEffect oracle0 (36, 36) sTombNoCharges).maze
      (roundDiv36 36) (roundDiv36 36) = some 0 :=
  ⟨(C3_charge_floor oracle0 sTombNoCharges).1 (by decide),
   ((C3_charge_floor oracle0 sTombNoCharges).2.2 (36, 36) (by decide) (by decide)).1⟩

/-- C3 counterexample: with power mode active and the charge counter
already at 0, stepping onto a tombstone still destroys it (and still
awards the 100 points) — the destroy event does not require
`chargesRemaining > 0` as the claim states. -/
theorem C3_counterexample :
    sTombNoCharges.wallsLeft = 0 ∧ 0 < sTombNoCharges.powerMode ∧
    mazeGet sTombNoCharges.maze 1 1 = some 6 ∧
    mazeGet (update oracle0 sTombNoCharges).maze 1 1 = some 0 ∧
    (update oracle0 sTombNoCharges).score = sTombNoCharges.score + 100 ∧
    (update oracle0 sTombNoCharges).wallsLeft = 0 := by
  decide

/-- C5 (amended): every generated maze is fully enclosed by WALL on its
outer border, and every tick that cannot break a wall (power mode
inactive or no charges at the start of the tick) preserves the border;
wall destruction under power mode, however, can and does remove border
walls, so the invariant is not preserved by every tick. -/
theorem C5_border_walls (o : Oracle) (s : GameState) (rand : Nat → Nat) (fuel : Nat) :
    BorderWalls (generateMaze rand fuel) ∧
    (BorderWalls s.maze → s.powerMode ≤ 0 ∨ s.wallsLeft ≤ 0 →
      BorderWalls (update o s).maze) := by
  refine ⟨generateMaze_borderWalls rand fuel, ?_⟩
  intro hb hp
  by_cases hpl : s.gameState = GState.PLAYING
  · rw [update_playing hpl]
    intro gy hgy gx hgx hedge
    exact updateBody_wallsPres o s hp (gy : Int) (gx : Int) (hb gy hgy gx hgx hedge)
  · rw [update_not_playing hpl]
    exact hb

theorem C5_border_walls_witness :
    BorderWalls (generateMaze (fun _ => 0) 60) ∧ BorderWalls (update oracle0 sBase).maze :=
  ⟨(C5_border_walls oracle0 sBase (fun _ => 0) 60).1,
   (C5_border_walls oracle0 sBase (fun _ => 0) 60).2 (by decide) (Or.inl (by decide))⟩

/-- C5 counterexample: a powered player with charges, one step below
the top border above column 1, breaks the border wall (0,1) in a single
tick: the enclosure invariant is not preserved by wall destruction. -/
theorem C5_counterexample :
    BorderWalls sBorderBreak.maze ∧
    0 < sBorderBreak.powerMode ∧ 0 < sBorderBreak.wallsLeft ∧
    mazeGet sBorderBreak.maze 0 1 = some 1 ∧
    mazeGet (update oracle0 sBorderBreak).maze 0 1 = some 0 := by
  decide

/-- C8 (amended): `canMove` permits motion whenever the projected cell
is horizontally outside the grid — regardless of the vertical
coordinate — and blocks whenever the projected cell is vertically
outside while horizontally inside; the player wrap sends a crossing
beyond either side back in from the opposite side. -/
theorem C8_wrap_and_block :
    (∀ (m : Maze) (pm wl x y : Int) (d : Direction),
      gridXOf x d < 0 ∨ GRID_WIDTH ≤ gridXOf x d → canMove m pm wl x y d = true) ∧
    (∀ (m : Maze) (pm wl x y : Int) (d : Direction),
      0 ≤ gridXOf x d → gridXOf x d < GRID_WIDTH →
      gridYOf y d < 0 ∨ GRID_HEIGHT ≤ gridYOf y d → canMove m pm wl x y d = false) ∧
    (∀ s : GameState, s.pacman.x < -TILE_SIZE → (stepWrap s).pacman.x = CANVAS_WIDTH) ∧
    (∀ s : GameState, -TILE_SIZE ≤ s.pacman.x → CANVAS_WIDTH < s.pacman.x →
      (stepWrap s).pacman.x = -TILE_SIZE) := by
  refine ⟨?_, ?_, ?_, ?_⟩
  · intro m pm wl x y d h
    unfold canMove
    dsimp only
    rw [if_pos h]
  · intro m pm wl x y d hx0 hx1 hy
    unfold canMove
    dsimp only
    rw [if_neg (by omega), if_pos hy]
  · intro s h
    unfold stepWrap
    dsimp only
    rw [if_pos h]
    dsimp only
    rw [if_neg (show ¬ (CANVAS_WIDTH : Int) > CANVAS_WIDTH by omega)]
  · intro s h0 h1
    unfold stepWrap
    dsimp only
    rw [if_neg (show ¬ s.pacman.x < -TILE_SIZE by omega)]
    rw [if_pos h1]

theorem C8_wrap_and_block_witness :
    canMove mazeOpen 0 0 (-40) 36 Direction.LEFT = true ∧
    canMove mazeOpen 0 0 36 0 Direction.UP = false ∧
    (stepWrap { sBase with pacman := { sBase.pacman with x := -40 } }).pacman.x = CANVAS_WIDTH ∧
    (stepWrap { sBase with pacman := { sBase.pacman with x := 544 } }).pacman.x = -TILE_SIZE :=
  ⟨C8_wrap_and_block.1 mazeOpen 0 0 (-40) 36 Direction.LEFT (by decide),
   C8_wrap_and_block.2.1 mazeOpen 0 0 36 0 Direction.UP (by decide) (by decide) (by decide),
   C8_wrap_and_block.2.2.1 _ (by decide),
   C8_wrap_and_block.2.2.2 _ (by decide) (by decide)⟩

/-- C8 counterexample: at the left wrap column the projected look-ahead
cell lies vertically outside the grid, yet `canMove` returns true (the
horizontal out-of-range check has priority), contradicting the claim
that motion is blocked whenever the projected cell is vertically
outside. -/
theorem C8_counterexample :
    gridYOf 0 Direction.UP < 0 ∧ canMove mazeOpen 0 0 (-36) 0 Direction.UP = true := by
  decide

/-- C9: every life-loss site uses the shared updater: at one life the
run ends with lives = 0 and state GAMEOVER and no position reset; with
more than one life, lives decrement and positions are reset. In
particular the tombstone hit while unpowered at one life ends the run
on that very tick, leaving the player and the ghosts where they are. -/
theorem C9_last_life (o : Oracle) (s : GameState) :
    (s.lives = 1 → applyLifeLoss s = { s with lives := 0, gameState := GState.GAMEOVER }) ∧
    (2 ≤ s.lives → applyLifeLoss s = { resetPositions s with lives := s.lives - 1 }) ∧
    (∀ pac : Int × Int,
      mazeGet s.maze (roundDiv36 pac.2) (roundDiv36 pac.1) = some 6 →
      s.powerMode = 0 → s.lives = 1 →
      (stepTileEffect o pac s).lives = 0 ∧
      (stepTileEffect o pac s).gameState = GState.GAMEOVER ∧
      (stepTileEffect o pac s).pacman = s.pacman ∧
      (stepTileEffect o pac s).ghosts = s.ghosts) := by
  refine ⟨?_, ?_, ?_⟩
  · intro h1
    unfold applyLifeLoss
    rw [if_pos (by omega)]
  · intro h2
    unfold applyLifeLoss
    rw [if_neg (by omega)]
  · intro pac hcell hpm h1
    unfold stepTileEffect
    dsimp only
    rw [hcell]
    rw [if_pos hpm]
    unfold applyLifeLoss
    rw [if_pos (by omega)]
    exact ⟨rfl, rfl, rfl, rfl⟩

theorem C9_last_life_witness :
    applyLifeLoss sLastLife = { sLastLife with lives := 0, gameState := GState.GAMEOVER } ∧
    applyLifeLoss sBase = { resetPositions sBase with lives := sBase.lives - 1 } ∧
    ((stepTileEffect oracle0 (36, 36) sLastLife).lives = 0 ∧
     (stepTileEffect oracle0 (36, 36) sLastLife).gameState = GState.GAMEOVER ∧
     (stepTileEffect oracle0 (36, 36) sLastLife).pacman = sLastLife.pacman ∧
     (stepTileEffect oracle0 (36, 36) sLastLife).ghosts = sLastLife.ghosts) :=
  ⟨(C9_last_life oracle0 sLastLife).1 (by decide),
   (C9_last_life oracle0 sBase).2.1 (by decide),
   (C9_last_life oracle0 sLastLife).2.2 (36, 36) (by decide) (by decide) (by decide)⟩

/-- C10: a ghost whose eaten or dying flag is set never interacts with
the player during its loop iteration: no life loss, no score, no state
change, no popup, and the player is untouched — in particular a DYING
ghost cannot be scored a second time before resolving to EATEN. -/
theorem C10_eaten_dying_skip (o : Oracle) (pac : Int × Int) (i : Nat)
    (s : GameState) (g : GhostEntity) (hg : s.ghosts.get? i = some g)
    (hskip : g.isEaten = true ∨ g.isDying = true) :
    (stepGhostAt o pac i s).lives = s.lives ∧
    (stepGhostAt o pac i s).score = s.score ∧
    (stepGhostAt o pac i s).gameState = s.gameState ∧
    (stepGhostAt o pac i s).popups = s.popups ∧
    (stepGhostAt o pac i s).pacman = s.pacman := by
  unfold stepGhostAt
  rw [hg]
  dsimp only
  by_cases hd : g.isDying = true
  · rw [if_pos hd]
    exact ⟨rfl, rfl, rfl, rfl, rfl⟩
  · have he : g.isEaten = true := hskip.resolve_right hd
    rw [if_neg hd]
    have hflag := (ghostAdvance_flags o i s g).2.1
    rw [if_neg (by simp [hflag, he])]
    have hlen : i < s.ghosts.length := (List.get?_eq_some.mp hg).1
    rw [show (s.ghosts.set i (ghostAdvance o i s g)).get? i = some (ghostAdvance o i s g)
      from List.get?_set_eq_of_lt _ hlen]
    dsimp only
    split
    · exact ⟨rfl, rfl, rfl, rfl, rfl⟩
    · exact ⟨rfl, rfl, rfl, rfl, rfl⟩

theorem C10_eaten_dying_skip_witness :
    (stepGhostAt oracle0 (36, 36) 0 sEatenPowered).lives = sEatenPowered.lives ∧
    (stepGhostAt oracle0 (36, 36) 0 sEatenPowered).score = sEatenPowered.score ∧
    (stepGhostAt oracle0 (36, 36) 0 sEatenPowered).gameState = sEatenPowered.gameState ∧
    (stepGhostAt oracle0 (36, 36) 0 sEatenPowered).popups = sEatenPowered.popups ∧
    (stepGhostAt oracle0 (36, 36) 0 sEatenPowered).pacman = sEatenPowered.pacman :=
  C10_eaten_dying_skip oracle0 (36, 36) 0 sEatenPowered gEaten (by decide) (Or.inl (by decide))

/-- C4 (amended): a power-candy pickup scares exactly the non-EATEN
ghosts and sets the timer (600) and charges (5); when the timer strikes
zero every ghost's scared flag is cleared; but the EATEN to NORMAL
respawn clears only the eaten flag, so a formerly eaten ghost that
respawns while the timer is still positive comes back NORMAL, not
SCARED — the claimed exclusivity does not hold in every state. -/
theorem C4_power_exclusivity (o : Oracle) (pac : Int × Int) (s : GameState) :
    (mazeGet s.maze (roundDiv36 pac.2) (roundDiv36 pac.1) = some 3 →
      (stepTileEffect o pac s).ghosts =
        s.ghosts.map (fun g : GhostEntity =>
          if !g.isEaten then { g with isScared := true } else g) ∧
      (stepTileEffect o pac s).powerMode = 600 ∧
      (stepTileEffect o pac s).wallsLeft = 5) ∧
    (s.powerMode = 1 →
      stepPowerMode s =
        { s with powerMode := 0,
                 ghosts := s.ghosts.map (fun g => { g with isScared := false }) }) ∧
    (∀ (i : Nat) (g : GhostEntity), s.ghosts.get? i = some g →
      g.isDying = false → g.isEaten = true → o.ghostRespawnRoll.getD i false = true →
      ((stepGhostAt o pac i s).ghosts.get? i).map
        (fun g2 => (g2.isEaten, g2.isScared, g2.isDying)) = some (false, g.isScared, false)) := by
  refine ⟨?_, ?_, ?_⟩
  · intro hcell
    unfold stepTileEffect
    dsimp only
    rw [hcell]
    exact ⟨rfl, rfl, rfl⟩
  · intro h1
    unfold stepPowerMode
    rw [if_pos (by omega)]
    dsimp only
    rw [if_pos (by omega)]
  · intro i g hg hd0 he hroll
    unfold stepGhostAt
    rw [hg]
    dsimp only
    rw [if_neg (by simp [hd0])]
    have hfS := (ghostAdvance_flags o i s g).1
    have hfE := (ghostAdvance_flags o i s g).2.1
    have hfD := (ghostAdvance_flags o i s g).2.2
    rw [if_neg (by simp [hfE, he])]
    have hlen : i < s.ghosts.length := (List.get?_eq_some.mp hg).1
    rw [show (s.ghosts.set i (ghostAdvance o i s g)).get? i = some (ghostAdvance o i s g)
      from List.get?_set_eq_of_lt _ hlen]
    dsimp only
    rw [if_pos (by simp only [hfE, he, Bool.true_and]; exact hroll)]
    dsimp only
    rw [show ((s.ghosts.set i (ghostAdvance o i s g)).set i
        { ghostAdvance o i s g with isEaten := false }).get? i =
        some { ghostAdvance o i s g with isEaten := false }
      from List.get?_set_eq_of_lt _ (by rw [List.length_set]; exact hlen)]
    simp [hfS, hfD, hd0]

theorem C4_power_exclusivity_witness :
    stepPowerMode { sBase with powerMode := 1 } = { sBase with powerMode := 0 } ∧
    ((stepGhostAt oRespawn (36, 36) 0 sEatenPowered).ghosts.get? 0).map
      (fun g2 => (g2.isEaten, g2.isScared, g2.isDying)) = some (false, gEaten.isScared, false) :=
  ⟨by rw [(C4_power_exclusivity oracle0 (36, 36) { sBase with powerMode := 1 }).2.1 (by decide)]; rfl,
   (C4_power_exclusivity oRespawn (36, 36) sEatenPowered).2.2 0 gEaten (by decide)
     (by decide) (by decide) (by decide)⟩

/-- C4 counterexample: while the power timer is still positive (500 at
tick start, 499 after), an EATEN ghost whose stochastic respawn roll
fires comes back with all flags false — a ghost that is neither EATEN
nor DYING nor SCARED coexists with a positive power timer, refuting the
claimed exclusivity. -/
theorem C4_counterexample :
    0 < (update oRespawn sEatenPowered).powerMode ∧
    ((update oRespawn sEatenPowered).ghosts.get? 0).map
      (fun g2 => (g2.isScared, g2.isEaten, g2.isDying)) = some (false, false, false) := by
  decide

/-- C6 (amended): only the in-play candy respawn loop is bounded: it
inspects at most 100 draws and silently gives up (maze unchanged) when
none is eligible. The two initial placement loops of `initGame` are
unbounded rejection samplers with no give-up path: a random sequence
that keeps hitting a wall cell (for example the top-left corner, a wall
in every generated maze) keeps them spinning forever with nothing
placed. -/
theorem C6_placement_loops :
    (∀ (draws : List (Nat × Nat)) (m : Maze),
      (∀ d ∈ draws,
        ¬ (mazeGet m ((d.2 % 21 : Nat) : Int) ((d.1 % 15 : Nat) : Int) = some 2 ∨
           mazeGet m ((d.2 % 21 : Nat) : Int) ((d.1 % 15 : Nat) : Int) = some 0)) →
      candyRespawnLoop 100 draws m = m) ∧
    (∀ (draws : List (Nat × Nat)) (m : Maze),
      candyRespawnLoop 100 draws m = candyRespawnLoop 100 (draws.take 100) m) ∧
    (∀ m : Maze, mazeGet m 0 0 = some 1 →
      ∀ (fuel step : Nat), (placeCandies (fun _ => (0, 0)) fuel step 0 m).2 = 0 ∧
        (placeTombstones (fun _ => (0, 0)) fuel step 0 m).2 = 0) :=
  ⟨fun draws m h => candyRespawnLoop_giveup 100 draws m h,
   fun draws m => candyRespawnLoop_take 100 draws m,
   fun _m hm fuel step => ⟨placeCandies_stuck hm fuel step, placeTombstones_stuck hm fuel step⟩⟩

theorem C6_placement_loops_witness :
    candyRespawnLoop 100 [(0, 0)] mazeOpen = mazeOpen ∧
    (placeCandies (fun _ => (0, 0)) 1000 0 0 mazeOpen).2 = 0 :=
  ⟨C6_placement_loops.1 [(0, 0)] mazeOpen (by decide),
   (C6_placement_loops.2.2 mazeOpen (by decide) 1000 0).1⟩

/-- C6 counterexample: the top-left cell of every generated maze is a
WALL, and on the adversarial random sequence that always draws it, the
initial candy and tombstone placement loops have placed nothing after
1000 attempts (and, by placeCandies_stuck, after any number of
attempts): they are not bounded-attempt routines with a give-up path. -/
theorem C6_counterexample :
    mazeGet (generateMaze (fun _ => 0) 300) 0 0 = some 1 ∧
    (placeCandies (fun _ => (0, 0)) 1000 0 0 (generateMaze (fun _ => 0) 300)).2 = 0 ∧
    (placeTombstones (fun _ => (0, 0)) 1000 0 0 (generateMaze (fun _ => 0) 300)).2 = 0 := by
  have hm : mazeGet (generateMaze (fun _ => 0) 300) 0 0 = some 1 :=
    generateMaze_borderWalls (fun _ => 0) 300 0 (by omega) 0 (by omega) (Or.inl rfl)
  exact ⟨hm, placeCandies_stuck hm 1000 0, placeTombstones_stuck hm 1000 0⟩

/-- C7 (amended): as long as no life-loss reset intervenes, a ghost
that enters DYING with the 30-tick timer stays DYING (timer counting
down) for 29 further ghost-loop iterations and on the 30th resolves to
EATEN, teleported to the hazard-chamber centre — it neither skips nor
reverses on its own. (A mid-tick `resetPositions`, however, can cancel
DYING back to NORMAL: see the counterexample.) -/
theorem C7_dying_resolves (o : Oracle) (pac : Int × Int) (s : GameState) (g : GhostEntity)
    (hg : s.ghosts = [g]) (hd : g.isDying = true) (ht : g.deathTimer = 30) :
    (∀ k : Nat, k < 30 →
      (((stepGhostAt o pac 0)^[k] s).ghosts.get? 0).map
        (fun g2 => (g2.isDying, g2.isEaten, g2.deathTimer)) =
        some (true, g.isEaten, 30 - (k : Int))) ∧
    (((stepGhostAt o pac 0)^[30] s).ghosts.get? 0).map
      (fun g2 => (g2.isDying, g2.isEaten, g2.x, g2.y)) =
      some (false, true, Int.fdiv GRID_WIDTH 2 * TILE_SIZE, Int.fdiv GRID_HEIGHT 2 * TILE_SIZE) := by
  have ghostKey : ∀ k : Nat, k ≤ 29 →
      (dyingGhostStep^[k] g).isDying = true ∧
      (dyingGhostStep^[k] g).deathTimer = 30 - (k : Int) ∧
      (dyingGhostStep^[k] g).isEaten = g.isEaten := by
    intro k
    induction k with
    | zero =>
      intro _
      exact ⟨hd, by simpa using ht, rfl⟩
    | succ n ih =>
      intro hn
      obtain ⟨d1, d2, d3⟩ := ih (by omega)
      rw [Function.iterate_succ_apply']
      set G := dyingGhostStep^[n] g with hG
      unfold dyingGhostStep
      dsimp only
      rw [if_neg (by rw [d2]; omega)]
      refine ⟨d1, ?_, d3⟩
      dsimp only
      rw [d2]
      push_cast
      omega
  have stateKey : ∀ k : Nat, k ≤ 30 →
      (stepGhostAt o pac 0)^[k] s = { s with ghosts := [dyingGhostStep^[k] g] } := by
    intro k
    induction k with
    | zero =>
      intro _
      simp only [Function.iterate_zero, id]
      rw [← hg]
    | succ n ih =>
      intro hn
      rw [Function.iterate_succ_apply', Function.iterate_succ_apply', ih (by omega)]
      obtain ⟨d1, d2, d3⟩ := ghostKey n (by omega)
      unfold stepGhostAt
      simp only [List.get?_cons_zero]
      rw [if_pos d1]
      simp only [List.set_cons_zero]
  constructor
  · intro k hk
    rw [stateKey k (by omega)]
    obtain ⟨d1, d2, d3⟩ := ghostKey k (by omega)
    simp [d1, d2, d3]
  · rw [stateKey 30 le_rfl]
    rw [show (30 : Nat) = 29 + 1 from rfl, Function.iterate_succ_apply']
    obtain ⟨d1, d2, d3⟩ := ghostKey 29 le_rfl
    set G := dyingGhostStep^[29] g with hG
    unfold dyingGhostStep
    dsimp only
    rw [if_pos (by rw [d2]; decide)]
    rfl

theorem C7_dying_resolves_witness :
    (∀ k : Nat, k < 30 →
      (((stepGhostAt oracle0 (0, 0) 0)^[k]
          { sBase with ghosts := [{ gDying with deathTimer := 30 }] }).ghosts.get? 0).map
        (fun g2 => (g2.isDying, g2.isEaten, g2.deathTimer)) =
        some (true, ({ gDying with deathTimer := 30 } : GhostEntity).isEaten, 30 - (k : Int))) ∧
    ((((stepGhostAt oracle0 (0, 0) 0)^[30]
        { sBase with ghosts := [{ gDying with deathTimer := 30 }] }).ghosts.get? 0).map
      (fun g2 => (g2.isDying, g2.isEaten, g2.x, g2.y)) =
      some (false, true, Int.fdiv GRID_WIDTH 2 * TILE_SIZE, Int.fdiv GRID_HEIGHT 2 * TILE_SIZE)) :=
  C7_dying_resolves oracle0 (0, 0) { sBase with ghosts := [{ gDying with deathTimer := 30 }] }
    { gDying with deathTimer := 30 } rfl (by decide) (by decide)

/-- C7 counterexample: a DYING ghost with 15 ticks left is reverted to
NORMAL (neither DYING nor EATEN, timer stranded at 14) in a single tick
when another ghost's collision costs the player a life and
`resetPositions` clears every ghost's flags — DYING does not always run
its full 30 ticks and does not always resolve to EATEN. -/
theorem C7_counterexample :
    (sDyingReset.ghosts.get? 0).map (fun g2 => (g2.isDying, g2.deathTimer)) =
      some (true, 15) ∧
    ((update oracle0 sDyingReset).ghosts.get? 0).map
      (fun g2 => (g2.isDying, g2.isEaten, g2.deathTimer)) = some (false, false, 14) ∧
    (update oracle0 sDyingReset).lives = 2 := by
  decide

/-- C1 (amended): the witch (hazard) collision ignores the power-mode
timer entirely — running the witch phase with any replaced timer gives
the same state with that timer, and a colliding active witch always
triggers the shared life loss (lives drop to `if lives ≤ 1 then 0 else
lives - 1`), powered or not. Tombstone collisions, by contrast, do
respect power mode: no life is lost while the timer is positive, and
the life loss fires only when the timer is zero. -/
theorem C1_hazard_power (o : Oracle) (pac : Int × Int) (i : Nat) (s : GameState) :
    (∀ pm : Int, stepWitchAt o pac i { s with powerMode := pm } =
      { stepWitchAt o pac i s with powerMode := pm }) ∧
    (∀ w : WitchEntity, s.witches.get? i = some w → w.active = true →
      witchCollides ((pac.1 : ℚ) - (w.x + o.witchDrift.getD i 0 * 3))
        ((pac.2 : ℚ) - (w.y + w.speed)) = true →
      (stepWitchAt o pac i s).lives = (if s.lives ≤ 1 then 0 else s.lives - 1)) ∧
    (mazeGet s.maze (roundDiv36 pac.2) (roundDiv36 pac.1) = some 6 → 0 < s.powerMode →
      (stepTileEffect o pac s).lives = s.lives) ∧
    (mazeGet s.maze (roundDiv36 pac.2) (roundDiv36 pac.1) = some 6 → s.powerMode = 0 →
      (stepTileEffect o pac s).lives = (if s.lives ≤ 1 then 0 else s.lives - 1)) := by
  refine ⟨fun pm => stepWitchAt_powerMode o pac i s pm, ?_, ?_, ?_⟩
  · intro w hw hact hcol
    unfold stepWitchAt
    rw [hw]
    dsimp only
    rw [if_pos (by rw [hcol, hact]; rfl)]
    unfold applyLifeLoss
    split
    · rfl
    · rfl
  · intro hcell hpm
    unfold stepTileEffect
    dsimp only
    rw [hcell]
    split
    · rename_i heq; exact absurd heq (by decide)
    · rename_i heq; exact absurd heq (by decide)
    · rw [if_neg (by omega)]
      dsimp only
      split
      · rfl
      · rfl
    · rename_i heq; exact absurd heq (by decide)
    · rw [if_neg (by omega)]
      dsimp only
      split
      · rfl
      · rfl
  · intro hcell hpm
    unfold stepTileEffect
    dsimp only
    rw [hcell]
    split
    · rename_i heq; exact absurd heq (by decide)
    · rename_i heq; exact absurd heq (by decide)
    · rw [if_pos hpm]
      unfold applyLifeLoss
      split
      · rfl
      · rfl
    · rename_i heq; exact absurd heq (by decide)
    · rw [if_pos hpm]
      unfold applyLifeLoss
      split
      · rfl
      · rfl

theorem C1_hazard_power_witness :
    stepWitchAt oracle0 (36, 36) 0 { sHazardPowered with powerMode := 0 } =
      { stepWitchAt oracle0 (36, 36) 0 sHazardPowered with powerMode := 0 } ∧
    (stepWitchAt oracle0 (36, 36) 0 sHazardPowered).lives =
      (if sHazardPowered.lives ≤ 1 then 0 else sHazardPowered.lives - 1) ∧
    (stepTileEffect oracle0 (36, 36) sTombNoCharges).lives = sTombNoCharges.lives ∧
    (stepTileEffect oracle0 (36, 36) sLastLife).lives =
      (if sLastLife.lives ≤ 1 then 0 else sLastLife.lives - 1) :=
  ⟨(C1_hazard_power oracle0 (36, 36) 0 sHazardPowered).1 0,
   (C1_hazard_power oracle0 (36, 36) 0 sHazardPowered).2.1
     { x := 36, y := 34, speed := 2, active := true, phase := 0 } rfl rfl
     (by norm_num [witchCollides, oracle0]),
   (C1_hazard_power oracle0 (36, 36) 0 sTombNoCharges).2.2.1 (by decide) (by decide),
   (C1_hazard_power oracle0 (36, 36) 0 sLastLife).2.2.2 (by decide) (by decide)⟩

/-- C1 counterexample: with the power-mode timer at 600 (fully active)
a falling witch landing on the player still decrements lives from 3 to
2 in one tick — power mode does not protect against hazard collisions,
contrary to the claim. -/
theorem C1_counterexample :
    sHazardPowered.powerMode = 600 ∧ sHazardPowered.lives = 3 ∧
    (update oracle0 sHazardPowered).lives = 2 := by
  refine ⟨by decide, by decide, ?_⟩
  norm_num [update, updateBody, stepPacmanMove, stepWrap, stepOob, stepTileEffect,
    stepPowerMode, stepPopups, stepFragments, stepGhosts, stepWinCheck, stepBonusCandy,
    stepBonusFruit, stepWitchSpawn, stepWitches, stepWitchAt, witchCollides, applyLifeLoss,
    resetPositions, canMove, gridXOf, gridYOf, lookAheadX, lookAheadY, roundDiv36, moveBy,
    breakWallAt, candyRespawnLoop, mazeGet, mazeSet, sHazardPowered, sBase, mazeOpen, oracle0,
    winCond, TILE_SIZE, GRID_WIDTH, GRID_HEIGHT, CANVAS_WIDTH, CANVAS_HEIGHT,
    List.range_succ, List.range_zero, List.foldl_cons, List.foldl_nil,
    List.getElem?_cons_zero, List.set_cons_zero, Int.fdiv,
    List.length_cons, List.length_nil, List.filter]

end Pachimon
